import Mathlib

/-!
Verification of the Pangaea 2.0 renderer core (frame scheduling, swapchain
recreation, staging uploads, descriptor-pool growth, pipeline-cache
persistence) against its natural-language specification.

Each definition below is a shallow embedding of a function from the C++
sources (`src/Renderer.cpp`, `src/Renderer.hpp`, `src/PipelineCache.cpp`).
Vulkan calls that can fail are driven by explicit oracle inputs; machine
integers are modelled by `Nat` (the quantities involved — capacities, counts,
indices — are non-negative and never overflow in the source's value ranges);
code that throws `std::runtime_error` is modelled in `Except String`.
-/

namespace Pangaea

/-! ## StagingUploader (Renderer.hpp / Renderer.cpp)

`StagingUploader::ensureCapacity(VkDeviceSize requiredBytes)`:

    if (requiredBytes <= capacity && stagingBuffer != VK_NULL_HANDLE) return;
    // destroy old buffer ...
    capacity = std::max<VkDeviceSize>(requiredBytes, capacity ? capacity * 2 : (1ull << 20));
    // allocate new buffer ...

The state we track is the `capacity` member and whether `stagingBuffer` is a
non-null handle.  The returned `Bool` records whether a reallocation happened
(`false` on the early-return path). -/

structure StagingState where
  capacity : Nat
  hasBuffer : Bool
  deriving DecidableEq, Repr

/-- Initial member values: `capacity = 0`, `stagingBuffer = VK_NULL_HANDLE`. -/
def stagingInit : StagingState := { capacity := 0, hasBuffer := false }

/-- `1ull << 20` (1 MiB), the growth floor in `ensureCapacity`. -/
def oneMiB : Nat := 2 ^ 20

/-- `Renderer::StagingUploader::ensureCapacity`. -/
def ensureCapacity (requiredBytes : Nat) (s : StagingState) : StagingState × Bool :=
  if requiredBytes ≤ s.capacity ∧ s.hasBuffer = true then
    (s, false)
  else
    ({ capacity := max requiredBytes (if s.capacity = 0 then oneMiB else s.capacity * 2),
       hasBuffer := true }, true)

/-- Apply a sequence of `ensureCapacity` calls, starting from a given state. -/
def ensureCapacitySeq (s : StagingState) (ns : List Nat) : StagingState :=
  ns.foldl (fun st n => (ensureCapacity n st).1) s

/-! ## DescriptorArena (Renderer.hpp)

`DescriptorArena::allocate(VkDescriptorSetLayout layout)`:

    if (pools.empty()) pools.push_back(createPool());
    ... r = vkAllocateDescriptorSets(device, &ai, &set);           // ai.descriptorPool = pools.back()
    if (r == VK_ERROR_OUT_OF_POOL_MEMORY || r == VK_ERROR_FRAGMENTED_POOL) {
        pools.push_back(createPool());
        ... VK_CHECK(vkAllocateDescriptorSets(device, &ai, &set)); // ai.descriptorPool = pools.back()
    } else VK_CHECK(r);
    return set;

The `VkResult` of each `vkAllocateDescriptorSets` attempt is an oracle input;
pool handles are drawn from a fresh-handle counter. -/

inductive AllocResult
  | success
  | errOutOfPoolMemory
  | errFragmentedPool
  | errOther
  deriving DecidableEq, Repr

/-- Pool-exhaustion-class results (the two retried codes). -/
def AllocResult.isExhaustion : AllocResult → Bool
  | .errOutOfPoolMemory => true
  | .errFragmentedPool => true
  | _ => false

structure ArenaState where
  pools : List Nat
  nextHandle : Nat
  deriving DecidableEq, Repr

/-- Oracle: the `VkResult` of the first and (if made) second allocation
attempt. -/
structure AllocEnv where
  firstResult : AllocResult
  secondResult : AllocResult
  deriving DecidableEq, Repr

/-- One allocation attempt observed in the trace: the pool it targeted and the
result the driver returned. -/
inductive ArenaAct
  | createPool (handle : Nat)
  | tryAlloc (pool : Nat) (r : AllocResult)
  deriving DecidableEq, Repr

/-- `createPool()` appended to the pool vector: `pools.push_back(createPool())`.
Pool handles are drawn from a fresh-handle counter. -/
def pushNewPool (s : ArenaState) : ArenaState :=
  { pools := s.pools ++ [s.nextHandle], nextHandle := s.nextHandle + 1 }

/-- `if (pools.empty()) pools.push_back(createPool());` -/
def ensurePoolNonempty (s : ArenaState) : ArenaState × List ArenaAct :=
  if s.pools.isEmpty then (pushNewPool s, [ArenaAct.createPool s.nextHandle])
  else (s, [])

/-- `Renderer::DescriptorArena::allocate`.  Returns the new state and the list
of pool-creation / allocation-attempt actions, or the fatal error thrown by
`VK_CHECK`. -/
def arenaAllocate (env : AllocEnv) (s : ArenaState) : Except String (ArenaState × List ArenaAct) :=
  let (s0, tr0) := ensurePoolNonempty s
  -- ai.descriptorPool = pools.back(); r = vkAllocateDescriptorSets(...)
  let tr1 := tr0 ++ [ArenaAct.tryAlloc (s0.pools.getLastD 0) env.firstResult]
  if env.firstResult.isExhaustion then
    -- pools.push_back(createPool()); ai.descriptorPool = pools.back(); retry
    let s1 := pushNewPool s0
    let tr2 := tr1 ++ [ArenaAct.createPool s0.nextHandle,
                       ArenaAct.tryAlloc (s1.pools.getLastD 0) env.secondResult]
    if env.secondResult = .success then .ok (s1, tr2)
    else .error "DescriptorArena: VkResult != VK_SUCCESS"
  else
    if env.firstResult = .success then .ok (s0, tr1)
    else .error "DescriptorArena: VkResult != VK_SUCCESS"

/-! ## PipelineCacheManager::save (PipelineCache.cpp)

    void PipelineCacheManager::save() const {
        if (!cache || !device || filePath.empty()) return;
        size_t size = 0;
        if (vkGetPipelineCacheData(device, cache, &size, nullptr) != VK_SUCCESS || size == 0) return;
        std::vector<char> data(size);
        if (vkGetPipelineCacheData(device, cache, &size, data.data()) != VK_SUCCESS || size == 0) return;
        { std::ofstream out(tempPath, ...); if (!out) return;
          out.write(...); out.flush(); if (!out) return; }
        std::error_code ec;
        fs::rename(tempPath, finalPath, ec);
        if (ec) { fs::remove(finalPath, ec); fs::rename(tempPath, finalPath, ec); }
    }

All fallible calls are oracle inputs.  The function is `const` and returns
`void`; it is modelled in `Except String` (like the throwing functions of the
codebase) so that "never raises an error" is an actual statement about the
result, and it emits the sequence of file-system / driver actions. -/

inductive SaveAct
  | getDataSize
  | getData
  | writeTemp
  | flushTemp
  | renameAttempt (n : Nat)
  | removeTarget
  deriving DecidableEq, Repr

structure SaveEnv where
  cacheNonNull : Bool
  deviceNonNull : Bool
  pathNonempty : Bool
  sizeQueryOk : Bool
  size : Nat
  dataQueryOk : Bool
  size2 : Nat
  openOk : Bool
  writeFlushOk : Bool
  rename1Ok : Bool
  rename2Ok : Bool
  deriving DecidableEq, Repr

/-- `PipelineCacheManager::save`. -/
def cacheSave (env : SaveEnv) : Except String (List SaveAct) :=
  if ¬ (env.cacheNonNull = true ∧ env.deviceNonNull = true ∧ env.pathNonempty = true) then
    .ok []
  else if ¬ (env.sizeQueryOk = true ∧ 0 < env.size) then
    .ok [SaveAct.getDataSize]
  else if ¬ (env.dataQueryOk = true ∧ 0 < env.size2) then
    .ok [SaveAct.getDataSize, SaveAct.getData]
  else if env.openOk = false then
    .ok [SaveAct.getDataSize, SaveAct.getData]
  else if env.writeFlushOk = false then
    .ok [SaveAct.getDataSize, SaveAct.getData, SaveAct.writeTemp, SaveAct.flushTemp]
  else if env.rename1Ok = true then
    .ok [SaveAct.getDataSize, SaveAct.getData, SaveAct.writeTemp, SaveAct.flushTemp,
         SaveAct.renameAttempt 1]
  else
    .ok [SaveAct.getDataSize, SaveAct.getData, SaveAct.writeTemp, SaveAct.flushTemp,
         SaveAct.renameAttempt 1, SaveAct.removeTarget, SaveAct.renameAttempt 2]

/-! ## makeCachePath (PipelineCache.cpp)

    static std::string toHex(const void* data, size_t bytes) {
        static const char* k = "0123456789abcdef";
        ... out[i*2+0] = k[p[i] >> 4]; out[i*2+1] = k[p[i] & 0xF]; ...
    }
    static std::string makeCachePath(VkPhysicalDevice phys, const std::string& dir) {
        ... driverId = driverProps.driverID;         // 0 if not filled
        const std::string uuidHex = toHex(props.pipelineCacheUUID, VK_UUID_SIZE);
        if (driverId != 0)
            snprintf(buf, ..., "pso_%04x_%04x_drv_%04x_api_%u.%u_uuid_%s.bin",
                props.vendorID, props.deviceID, driverId,
                VK_API_VERSION_MAJOR(props.apiVersion), VK_API_VERSION_MINOR(props.apiVersion),
                uuidHex.c_str());
        else
            snprintf(buf, ..., "pso_%04x_%04x_drvver_%08x_api_%u.%u_uuid_%s.bin",
                props.vendorID, props.deviceID, props.driverVersion, ...);
        ...
        return (fs::path(dir) / buf).string();
    }

The filename (the `buf` part, which is what keys the cache) is modelled as a
`List Char`.  `%0Nx` prints lowercase hex, zero-padded to a minimum width of
`N`; `%u` prints decimal.  `k[x]` is only ever indexed with `x < 16` in the
source (nibbles of a byte, remainders); the model writes `x % 16` to make the
lookup total at those same values. -/

/-- The digit table `k = "0123456789abcdef"`. -/
def hexDigitChars : List Char := "0123456789abcdef".toList

/-- `k[d]` for a nibble `d < 16`. -/
def hexChar (d : Nat) : Char := hexDigitChars.getD (d % 16) '0'

/-- Digits (most significant first) of `n` in base `b + 2`, prepended to
`acc`; the digit characters come from the shared table, so this covers both
`%x` (base 16) and `%u` (base 10). -/
def toBaseAux (b : Nat) : Nat → List Char → List Char
  | 0, acc => acc
  | n + 1, acc => toBaseAux b ((n + 1) / (b + 2)) (hexChar ((n + 1) % (b + 2)) :: acc)
termination_by n => n
decreasing_by
  exact Nat.lt_of_lt_of_le (Nat.div_lt_self (Nat.succ_pos n) (by omega)) (Nat.le_refl _)

/-- Printf-style rendering of `n` in base `b + 2` (at least one digit). -/
def repBase (b n : Nat) : List Char := if n = 0 then ['0'] else toBaseAux b n []

/-- Zero-pad on the left to width `w` (printf `%0Nx`). -/
def padLeft0 (w : Nat) (ds : List Char) : List Char :=
  List.replicate (w - ds.length) '0' ++ ds

/-- `%0Wx`: lowercase hex, zero-padded to minimum width `w`. -/
def hexPad (w n : Nat) : List Char := padLeft0 w (repBase 14 n)

/-- `%u`: decimal. -/
def decRepr (n : Nat) : List Char := repBase 8 n

/-- `toHex` over the 16 `pipelineCacheUUID` bytes: two nibble characters per
byte, `k[p[i] >> 4]` then `k[p[i] & 0xF]`. -/
def uuidHexChars : List Nat → List Char
  | [] => []
  | b :: bs => hexChar (b / 16) :: hexChar (b % 16) :: uuidHexChars bs

/-- `VK_API_VERSION_MAJOR(v) = (v >> 22) & 0x7F`. -/
def apiMajor (v : Nat) : Nat := v / 2 ^ 22 % 2 ^ 7

/-- `VK_API_VERSION_MINOR(v) = (v >> 12) & 0x3FF`. -/
def apiMinor (v : Nat) : Nat := v / 2 ^ 12 % 2 ^ 10

/-- The fields of `VkPhysicalDeviceProperties` that `makeCachePath` reads. -/
structure PhysProps where
  vendorID : Nat
  deviceID : Nat
  driverVersion : Nat
  apiVersion : Nat
  pipelineCacheUUID : List Nat
  deriving DecidableEq, Repr

/-- The filename `buf` computed by `makeCachePath`; `driverId` is the value
read from `VkPhysicalDeviceDriverProperties::driverID` (0 when the driver does
not fill the struct). -/
def makeCacheFileName (p : PhysProps) (driverId : Nat) : List Char :=
  ['p','s','o','_'] ++ hexPad 4 p.vendorID ++ '_' :: hexPad 4 p.deviceID ++ '_' ::
  (if driverId ≠ 0 then ['d','r','v','_'] ++ hexPad 4 driverId
   else ['d','r','v','v','e','r','_'] ++ hexPad 8 p.driverVersion) ++
  '_' :: ['a','p','i','_'] ++ decRepr (apiMajor p.apiVersion) ++ '.' ::
  decRepr (apiMinor p.apiVersion) ++ '_' :: ['u','u','i','d','_'] ++
  uuidHexChars p.pipelineCacheUUID ++ ['.','b','i','n']

/-- The driver-identifier component of the cache key: the stable `driverID`
when it is available and nonzero, otherwise the raw `driverVersion`. -/
def driverKey (p : PhysProps) (driverId : Nat) : Nat ⊕ Nat :=
  if driverId ≠ 0 then Sum.inl driverId else Sum.inr p.driverVersion

/-! Decoding helpers (verification-side only): to prove that the filename
determines the key components, we decode what the printf produced — the value
of a digit character, a parser that splits at the first separator character,
and the number a digit string denotes. -/

/-- Index of a character in the digit table (= the digit value it denotes). -/
def hexVal (c : Char) : Nat := hexDigitChars.indexOf c

/-- Split a character list at the first occurrence of `stop` (dropped). -/
def splitAtChar (stop : Char) : List Char → List Char × List Char
  | [] => ([], [])
  | c :: cs =>
    if c = stop then ([], cs)
    else
      let r := splitAtChar stop cs
      (c :: r.1, r.2)

/-- The number denoted by a digit string in base `b + 2`. -/
def fromBase (b : Nat) (l : List Char) : Nat :=
  l.foldl (fun a c => (b + 2) * a + hexVal c) 0

/-- Number of digits `toBaseAux` produces for `n` in base `b + 2`. -/
def baseLen (b : Nat) : Nat → Nat
  | 0 => 0
  | n + 1 => baseLen b ((n + 1) / (b + 2)) + 1
termination_by n => n
decreasing_by
  exact Nat.lt_of_lt_of_le (Nat.div_lt_self (Nat.succ_pos n) (by omega)) (Nat.le_refl _)

/-! ## The frame loop: Renderer::drawFrame (Renderer.cpp)

The state is the renderer's synchronization data.  Fences live in a heap
`fences : List Bool` (handle = index, value = signaled?); `inFlightFences`
holds the per-slot fence handles (`MAX_FRAMES_IN_FLIGHT` of them, created
signaled by `createSyncObjects` and never reallocated afterwards);
`imagesInFlight` holds, per swapchain image, the handle of the last-submitting
slot fence, or `none` for `VK_NULL_HANDLE`.  `MAX_FRAMES_IN_FLIGHT` is a
compile-time constant (2 in the source); the model keeps it as the field
`maxFramesInFlight` so the frame-loop theorems hold for every value `N ≥ 1`.

A `vkWaitForFences` call with `UINT64_MAX` timeout returns only once the GPU
has signaled the fence, so its post-state marks the fence signaled;
`vkResetFences` marks it unsignaled.  The driver-dependent outcomes
(`vkAcquireNextImageKHR` result and image index, `vkQueueSubmit` success,
`vkQueuePresentKHR` result, and the image count after a recreation) are oracle
inputs.  Each executed Vulkan/GLFW call is recorded as an event. -/

inductive AcquireResult
  | success
  | suboptimalKHR
  | outOfDateKHR
  | errorOther
  deriving DecidableEq, Repr

inductive PresentResult
  | success
  | suboptimalKHR
  | outOfDateKHR
  | errorOther
  deriving DecidableEq, Repr

structure FrameInput where
  acq : AcquireResult
  imageIndex : Nat
  submitOk : Bool
  pres : PresentResult
  newImageCount : Nat
  deriving DecidableEq, Repr

structure RenderState where
  maxFramesInFlight : Nat
  currentFrame : Nat
  fences : List Bool
  inFlightFences : List Nat
  imagesInFlight : List (Option Nat)
  framebufferResized : Bool
  deriving DecidableEq, Repr

/-- State after `init` (`createSyncObjects`): `N` slot fences created with
`VK_FENCE_CREATE_SIGNALED_BIT`, `imagesInFlight` of size `K` filled with
`VK_NULL_HANDLE`, `currentFrame = 0`. -/
def initialRenderState (n k : Nat) : RenderState :=
  { maxFramesInFlight := n
    currentFrame := 0
    fences := List.replicate n true
    inFlightFences := List.range n
    imagesInFlight := List.replicate k none
    framebufferResized := false }

inductive Ev
  | waitFence (h : Nat)
  | acquire (r : AcquireResult) (k : Nat)
  | setImageFence (k : Nat) (h : Nat)
  | updateUniform (k : Nat)
  | resetCmd (k : Nat)
  | recordCmd (k : Nat)
  | resetFence (h : Nat)
  | submit (k : Nat) (h : Nat)
  | present (k : Nat)
  | recreate (newCount : Nat)
  deriving DecidableEq, Repr

/-- The fence handle `inFlightFences[currentFrame]`. -/
def slotFence (s : RenderState) : Nat := s.inFlightFences.getD s.currentFrame 0

/-- `vkWaitForFences(device, 1, &h, VK_TRUE, UINT64_MAX)`: on return the fence
is signaled. -/
def waitOnFence (s : RenderState) (h : Nat) : RenderState :=
  { s with fences := s.fences.set h true }

/-- `vkResetFences(device, 1, &h)`. -/
def resetFenceSt (s : RenderState) (h : Nat) : RenderState :=
  { s with fences := s.fences.set h false }

/-- Effect of `recreateSwapchain()` on the frame-loop state: per-image sync is
rebuilt for the new image count (`recreatePerImageSemaphores` ends with
`imagesInFlight.assign(swapchainImages.size(), VK_NULL_HANDLE)`); the slot
fences and `currentFrame` are untouched. -/
def recreateInFrame (newCount : Nat) (s : RenderState) : RenderState :=
  { s with imagesInFlight := List.replicate newCount none }

/-- `currentFrame = (currentFrame + 1) % MAX_FRAMES_IN_FLIGHT`. -/
def advanceFrame (s : RenderState) : RenderState :=
  { s with currentFrame := (s.currentFrame + 1) % s.maxFramesInFlight }

/-- `Renderer::drawFrame`.  Returns the post-state and the event trace, or the
message of the `std::runtime_error` thrown. -/
def drawFrame (inp : FrameInput) (s : RenderState) : Except String (RenderState × List Ev) :=
  -- vkWaitForFences(device, 1, &inFlightFences[currentFrame], VK_TRUE, UINT64_MAX);
  let fh := slotFence s
  let s1 := waitOnFence s fh
  -- VkResult acq = vkAcquireNextImageKHR(...)
  if inp.acq = .outOfDateKHR then
    -- { recreateSwapchain(); return; }
    .ok (recreateInFrame inp.newImageCount s1,
         [Ev.waitFence fh, Ev.acquire inp.acq inp.imageIndex, Ev.recreate inp.newImageCount])
  else if inp.acq ≠ .success ∧ inp.acq ≠ .suboptimalKHR then
    .error "Failed to acquire swapchain image"
  else
    let k := inp.imageIndex
    -- if (imagesInFlight[imageIndex] != VK_NULL_HANDLE) vkWaitForFences(...);
    -- (imagesInFlight is not modified by the preceding fence wait)
    let (s2, waitTr) :=
      match s.imagesInFlight.getD k none with
      | some oldh => (waitOnFence s1 oldh, [Ev.waitFence oldh])
      | none => (s1, [])
    -- imagesInFlight[imageIndex] = inFlightFences[currentFrame];
    let s3 := { s2 with imagesInFlight := s2.imagesInFlight.set k (some fh) }
    -- updateUniformBuffer; vkResetCommandBuffer; recordCommandBuffer;
    -- vkResetFences(device, 1, &inFlightFences[currentFrame]);
    let s4 := resetFenceSt s3 fh
    if inp.submitOk = false then .error "Failed to submit draw"
    else
      let tr :=
        [Ev.waitFence fh, Ev.acquire inp.acq k] ++ waitTr ++
        [Ev.setImageFence k fh, Ev.updateUniform k, Ev.resetCmd k, Ev.recordCmd k,
         Ev.resetFence fh, Ev.submit k fh, Ev.present k]
      -- VkResult pres = vkQueuePresentKHR(...);
      -- (framebufferResized is not modified between entry and this check)
      if inp.pres = .outOfDateKHR ∨ inp.pres = .suboptimalKHR ∨ s.framebufferResized = true then
        -- { framebufferResized = false; recreateSwapchain(); }
        let s5 := recreateInFrame inp.newImageCount { s4 with framebufferResized := false }
        .ok (advanceFrame s5, tr ++ [Ev.recreate inp.newImageCount])
      else if inp.pres ≠ .success then .error "Failed to present"
      else .ok (advanceFrame s4, tr)

/-- Record of one executed frame: pre-state (after the resize flag was merged
in), the oracle input, the emitted events and the post-state. -/
structure FrameRec where
  pre : RenderState
  input : FrameInput
  events : List Ev
  post : RenderState
  deriving DecidableEq, Repr

/-- `setFramebufferResized(true)` called by the GLFW resize callback before
the frame (no-op when the callback did not fire). -/
def mergeResize (resized : Bool) (s : RenderState) : RenderState :=
  if resized then { s with framebufferResized := true } else s

/-- Run a sequence of frames.  The `Bool` of each step tells whether the GLFW
resize callback fired since the previous frame. -/
def runFrames : RenderState → List (Bool × FrameInput) → Except String (List FrameRec × RenderState)
  | s, [] => .ok ([], s)
  | s, (resized, inp) :: rest =>
    match drawFrame inp (mergeResize resized s) with
    | .error e => .error e
    | .ok (s', tr) =>
      match runFrames s' rest with
      | .error e => .error e
      | .ok (recs, sf) =>
        .ok ({ pre := mergeResize resized s, input := inp, events := tr, post := s' } :: recs, sf)

/-- Replay the fence-heap effect of a list of events (`waitFence` returns with
the fence signaled; `resetFence` unsignals it; no other event touches a
fence).  Used to state what the fence heap holds at a given point inside a
frame's trace. -/
def replayFences (fences : List Bool) : List Ev → List Bool
  | [] => fences
  | Ev.waitFence h :: tl => replayFences (fences.set h true) tl
  | Ev.resetFence h :: tl => replayFences (fences.set h false) tl
  | _ :: tl => replayFences fences tl

/-- Is this event the `vkResetCommandBuffer` step? -/
def Ev.isResetCmd : Ev → Bool
  | .resetCmd _ => true
  | _ => false

/-- Is this event the `updateUniformBuffer` step? -/
def Ev.isUpdateUniform : Ev → Bool
  | .updateUniform _ => true
  | _ => false

/-- Structural well-formedness of the frame-loop state, as established by
`init` for `MAX_FRAMES_IN_FLIGHT = N`: the slot-fence handle vector is the
first `N` fence-heap handles (created once by `createSyncObjects` and never
reallocated), `currentFrame` stays below `N`, and every fence handle stored in
`imagesInFlight` is one of the `N` slot-fence handles. -/
def StateWF (n : Nat) (s : RenderState) : Prop :=
  s.maxFramesInFlight = n ∧ s.currentFrame < n ∧ s.inFlightFences = List.range n ∧
  s.fences.length = n ∧ ∀ hdl, some hdl ∈ s.imagesInFlight → hdl < n

/-! ## Renderer::recreateSwapchain (Renderer.cpp)

    void Renderer::recreateSwapchain() {
        int width = 0, height = 0;
        do { glfwGetFramebufferSize(windowHandle, &width, &height);
             if (width == 0 || height == 0) glfwWaitEvents();
        } while (width == 0 || height == 0);
        vkDeviceWaitIdle(device);
        destroySwapchainObjects();
        createSwapchain(); createImageViews(); createDepthResources();
        createGraphicsPipeline(); createUniformBuffers(); createDescriptorPool();
        createDescriptorSets(); createCommandBuffers(); recreatePerImageSemaphores();
    }

The successive `glfwGetFramebufferSize` results form an oracle list; an empty
remainder models a window that never leaves the minimized state, in which case
the loop never exits and nothing below it runs (`none`).  Surface
capabilities, the size used by `chooseSwapExtent`, and the image count
reported by `vkGetSwapchainImagesKHR` are oracle inputs. -/

structure SurfaceCaps where
  minImageCount : Nat
  maxImageCount : Nat
  currentExtentW : Nat
  currentExtentH : Nat
  minExtentW : Nat
  minExtentH : Nat
  maxExtentW : Nat
  maxExtentH : Nat
  deriving DecidableEq, Repr

structure RecreateEnv where
  polledSizes : List (Nat × Nat)
  caps : SurfaceCaps
  windowW : Nat
  windowH : Nat
  actualImageCount : Nat
  deriving DecidableEq, Repr

/-- The per-image resource containers the claims are about. -/
structure SwapObjects where
  swapchainImages : List Nat
  swapchainImageViews : List Nat
  commandBuffers : List Nat
  renderFinishedSemaphores : List Nat
  imagesInFlight : List (Option Nat)
  extentW : Nat
  extentH : Nat
  deriving DecidableEq, Repr

inductive RecAct
  | deviceWaitIdle
  | destroyObjects
  | buildSwapchain
  | buildImageViews
  | buildDepthResources
  | buildGraphicsPipeline
  | buildUniformBuffers
  | buildDescriptorPool
  | buildDescriptorSets
  | buildCommandBuffers
  | buildPerImageSemaphores
  deriving DecidableEq, Repr

/-- `std::numeric_limits<uint32_t>::max()`, the "use window size" sentinel. -/
def uint32Max : Nat := 2 ^ 32 - 1

/-- `Renderer::chooseSwapExtent`. -/
def chooseSwapExtent (caps : SurfaceCaps) (w h : Nat) : Nat × Nat :=
  if caps.currentExtentW ≠ uint32Max then (caps.currentExtentW, caps.currentExtentH)
  else (min (max w caps.minExtentW) caps.maxExtentW,
        min (max h caps.minExtentH) caps.maxExtentH)

/-- The `do { ... } while (width == 0 || height == 0)` loop: return the first
polled size with both dimensions nonzero (`none` if the oracle list runs out,
i.e. the size never becomes nonzero and the loop spins forever). -/
def waitForNonzeroSize : List (Nat × Nat) → Option (Nat × Nat)
  | [] => none
  | wh :: rest => if wh.1 = 0 ∨ wh.2 = 0 then waitForNonzeroSize rest else some wh

/-- `destroySwapchainObjects()`: every per-image container is cleared. -/
def destroySwapchainObjects (s : SwapObjects) : SwapObjects :=
  { s with swapchainImages := [], swapchainImageViews := [], commandBuffers := []
           renderFinishedSemaphores := [], imagesInFlight := [] }

/-- `createSwapchain()`: image count = `minImageCount + 1` clamped to
`maxImageCount` when that is nonzero; the handles actually returned by
`vkGetSwapchainImagesKHR` may differ in number (the driver may create more),
so the stored vector is resized to the reported `actualImageCount`. -/
def createSwapchainSt (env : RecreateEnv) (s : SwapObjects) : SwapObjects :=
  let ext := chooseSwapExtent env.caps env.windowW env.windowH
  { s with swapchainImages := List.range env.actualImageCount
           extentW := ext.1, extentH := ext.2 }

/-- `createImageViews()`: `swapchainImageViews.resize(swapchainImages.size())`,
one view per image. -/
def createImageViewsSt (s : SwapObjects) : SwapObjects :=
  { s with swapchainImageViews := s.swapchainImages.map (fun h => h + 1) }

/-- `createCommandBuffers()`: `commandBuffers.resize(swapchainImages.size())`. -/
def createCommandBuffersSt (s : SwapObjects) : SwapObjects :=
  { s with commandBuffers := s.swapchainImages.map (fun h => h + 2) }

/-- `recreatePerImageSemaphores()`: one render-finished semaphore per image and
`imagesInFlight.assign(swapchainImages.size(), VK_NULL_HANDLE)`. -/
def recreatePerImageSemaphoresSt (s : SwapObjects) : SwapObjects :=
  { s with renderFinishedSemaphores := s.swapchainImages.map (fun h => h + 3)
           imagesInFlight := List.replicate s.swapchainImages.length none }

/-- `Renderer::recreateSwapchain`. -/
def recreateSwapchain (env : RecreateEnv) (s : SwapObjects) : Option (SwapObjects × List RecAct) :=
  match waitForNonzeroSize env.polledSizes with
  | none => none
  | some _ =>
    let s1 := destroySwapchainObjects s
    let s2 := createSwapchainSt env s1
    let s3 := createImageViewsSt s2
    let s4 := createCommandBuffersSt s3
    let s5 := recreatePerImageSemaphoresSt s4
    some (s5,
      [RecAct.deviceWaitIdle, RecAct.destroyObjects, RecAct.buildSwapchain,
       RecAct.buildImageViews, RecAct.buildDepthResources, RecAct.buildGraphicsPipeline,
       RecAct.buildUniformBuffers, RecAct.buildDescriptorPool, RecAct.buildDescriptorSets,
       RecAct.buildCommandBuffers, RecAct.buildPerImageSemaphores])

/-! # Theorems -/

/-! ## StagingUploader -/

theorem ensureCapacity_capacity_le (n : Nat) (s : StagingState) :
    s.capacity ≤ (ensureCapacity n s).1.capacity := by
  unfold ensureCapacity
  split
  · exact Nat.le_refl _
  · simp only
    by_cases hc : s.capacity = 0
    · rw [hc]; exact Nat.zero_le _
    · rw [if_neg hc]
      exact Nat.le_trans (by omega) (le_max_right n (s.capacity * 2))

theorem ensureCapacity_noop {n : Nat} {s : StagingState} (h1 : n ≤ s.capacity)
    (h2 : s.hasBuffer = true) : ensureCapacity n s = (s, false) := by
  unfold ensureCapacity
  rw [if_pos ⟨h1, h2⟩]

theorem ensureCapacity_hasBuffer (n : Nat) (s : StagingState) :
    (ensureCapacity n s).1.hasBuffer = true ∧ n ≤ (ensureCapacity n s).1.capacity := by
  unfold ensureCapacity
  split
  · rename_i h
    exact ⟨h.2, h.1⟩
  · exact ⟨rfl, Nat.le_max_left _ _⟩

/-- Invariant of every state reachable by `ensureCapacity` calls: the capacity
is zero (no buffer yet allocated) or at least the 1 MiB floor. -/
def CapInv (s : StagingState) : Prop := s.capacity = 0 ∨ oneMiB ≤ s.capacity

theorem ensureCapacity_capInv (n : Nat) (s : StagingState) (h : CapInv s) :
    CapInv (ensureCapacity n s).1 := by
  have hone : 0 < oneMiB := by decide
  unfold ensureCapacity
  split
  · exact h
  · right
    simp only
    rcases h with h0 | h1
    · rw [if_pos h0]
      exact le_max_right n oneMiB
    · have hne : s.capacity ≠ 0 := by omega
      rw [if_neg hne]
      exact Nat.le_trans (by omega) (le_max_right n (s.capacity * 2))

theorem ensureCapacitySeq_capInv (ns : List Nat) (s : StagingState) (h : CapInv s) :
    CapInv (ensureCapacitySeq s ns) := by
  induction ns generalizing s with
  | nil => exact h
  | cons m ms ih => exact ih _ (ensureCapacity_capInv m s h)

theorem ensureCapacitySeq_capacity_le (ns : List Nat) (s : StagingState) :
    s.capacity ≤ (ensureCapacitySeq s ns).capacity := by
  induction ns generalizing s with
  | nil => exact Nat.le_refl _
  | cons m ms ih =>
    exact Nat.le_trans (ensureCapacity_capacity_le m s) (ih _)

/-- C5: `ensureCapacity(n)` on any state reachable from initialization: if the
capacity already covers `n` and a buffer exists, state and capacity are
unchanged (no reallocation); otherwise the replacement buffer's capacity is
`max(n, currentCapacity*2, 1 MiB)`; and the capacity never shrinks. -/
theorem ensureCapacity_policy (ns : List Nat) (n : Nat) :
    ((n ≤ (ensureCapacitySeq stagingInit ns).capacity ∧
        (ensureCapacitySeq stagingInit ns).hasBuffer = true) →
      ensureCapacity n (ensureCapacitySeq stagingInit ns) =
        (ensureCapacitySeq stagingInit ns, false)) ∧
    (¬ (n ≤ (ensureCapacitySeq stagingInit ns).capacity ∧
        (ensureCapacitySeq stagingInit ns).hasBuffer = true) →
      (ensureCapacity n (ensureCapacitySeq stagingInit ns)).1.capacity =
        max n (max ((ensureCapacitySeq stagingInit ns).capacity * 2) oneMiB)) ∧
    (ensureCapacitySeq stagingInit ns).capacity ≤
      (ensureCapacity n (ensureCapacitySeq stagingInit ns)).1.capacity := by
  have hone : 0 < oneMiB := by decide
  have hinv : CapInv (ensureCapacitySeq stagingInit ns) :=
    ensureCapacitySeq_capInv ns stagingInit (Or.inl rfl)
  refine ⟨?_, ?_, ensureCapacity_capacity_le n _⟩
  · intro h
    unfold ensureCapacity
    rw [if_pos h]
  · intro h
    unfold ensureCapacity
    rw [if_neg h]
    simp only
    rcases hinv with h0 | h1
    · rw [h0, if_pos rfl]
      have : max (0 * 2) oneMiB = oneMiB := by omega
      rw [this]
    · have hne : (ensureCapacitySeq stagingInit ns).capacity ≠ 0 := by omega
      rw [if_neg hne]
      have hmax : max ((ensureCapacitySeq stagingInit ns).capacity * 2) oneMiB =
          (ensureCapacitySeq stagingInit ns).capacity * 2 :=
        Nat.max_eq_left (by omega)
      rw [hmax]

theorem ensureCapacity_policy_witness :
    (¬ (5 ≤ (ensureCapacitySeq stagingInit []).capacity ∧
        (ensureCapacitySeq stagingInit []).hasBuffer = true)) ∧
    (ensureCapacity 5 (ensureCapacitySeq stagingInit [])).1.capacity =
      max 5 (max ((ensureCapacitySeq stagingInit []).capacity * 2) oneMiB) :=
  ⟨by decide, (ensureCapacity_policy [] 5).2.1 (by decide)⟩

/-- C6: a second `ensureCapacity` call with a no-larger request performs no
reallocation and leaves the state unchanged; after any sequence of calls the
capacity is at least every request seen. -/
theorem ensureCapacity_no_realloc_on_smaller :
    (∀ (s : StagingState) (n1 n2 : Nat), n2 ≤ n1 →
      ensureCapacity n2 (ensureCapacity n1 s).1 = ((ensureCapacity n1 s).1, false)) ∧
    (∀ (s : StagingState) (ns : List Nat), ∀ n ∈ ns,
      n ≤ (ensureCapacitySeq s ns).capacity) := by
  constructor
  · intro s n1 n2 h
    have hpost := ensureCapacity_hasBuffer n1 s
    exact ensureCapacity_noop (Nat.le_trans h hpost.2) hpost.1
  · intro s ns
    induction ns generalizing s with
    | nil => intro n hn; cases hn
    | cons m ms ih =>
      intro n hn
      rcases List.mem_cons.mp hn with rfl | hn'
      · calc n ≤ (ensureCapacity n s).1.capacity := (ensureCapacity_hasBuffer n s).2
          _ ≤ (ensureCapacitySeq (ensureCapacity n s).1 ms).capacity :=
              ensureCapacitySeq_capacity_le ms _
      · exact ih _ n hn'

theorem ensureCapacity_no_realloc_on_smaller_witness :
    (3 ≤ 7 ∧
      ensureCapacity 3 (ensureCapacity 7 stagingInit).1 =
        ((ensureCapacity 7 stagingInit).1, false)) ∧
    (7 ∈ [7, 3] ∧ 7 ≤ (ensureCapacitySeq stagingInit [7, 3]).capacity) :=
  ⟨⟨by decide, ensureCapacity_no_realloc_on_smaller.1 stagingInit 7 3 (by decide)⟩,
   ⟨by decide, ensureCapacity_no_realloc_on_smaller.2 stagingInit [7, 3] 7 (by decide)⟩⟩

/-! ## DescriptorArena -/

theorem getLastD_append_singleton {α : Type} (l : List α) (a d : α) :
    (l ++ [a]).getLastD d = a := by
  induction l with
  | nil => rfl
  | cons x xs ih =>
    cases xs with
    | nil => rfl
    | cons y ys => simpa using ih

theorem ensurePoolNonempty_pools (s : ArenaState) :
    ∃ ext, (ensurePoolNonempty s).1.pools = s.pools ++ ext := by
  unfold ensurePoolNonempty
  split
  · exact ⟨[s.nextHandle], rfl⟩
  · exact ⟨[], by simp⟩

/-- C7: `DescriptorArena::allocate` first tries the most recently appended
pool; on a pool-exhaustion-class result it appends exactly one new pool and
retries exactly once against that new pool (so exhaustion with a working fresh
pool always succeeds); any other non-success result — on either attempt — is
fatal; and on every successful return the pool sequence has only been extended,
never shrunk. -/
theorem arenaAllocate_spec (env : AllocEnv) (s : ArenaState) :
    (env.firstResult = .success →
      arenaAllocate env s =
        .ok ((ensurePoolNonempty s).1,
             (ensurePoolNonempty s).2 ++
               [ArenaAct.tryAlloc ((ensurePoolNonempty s).1.pools.getLastD 0)
                  env.firstResult])) ∧
    (env.firstResult.isExhaustion = true →
      (env.secondResult = .success →
        arenaAllocate env s =
          .ok (pushNewPool (ensurePoolNonempty s).1,
               (ensurePoolNonempty s).2 ++
                 [ArenaAct.tryAlloc ((ensurePoolNonempty s).1.pools.getLastD 0)
                    env.firstResult,
                  ArenaAct.createPool (ensurePoolNonempty s).1.nextHandle,
                  ArenaAct.tryAlloc (ensurePoolNonempty s).1.nextHandle
                    env.secondResult])) ∧
      (env.secondResult ≠ .success →
        arenaAllocate env s = .error "DescriptorArena: VkResult != VK_SUCCESS")) ∧
    (env.firstResult ≠ .success → env.firstResult.isExhaustion = false →
      arenaAllocate env s = .error "DescriptorArena: VkResult != VK_SUCCESS") ∧
    (∀ s' tr, arenaAllocate env s = .ok (s', tr) →
      ∃ ext, s'.pools = s.pools ++ ext) := by
  obtain ⟨ext0, hext0⟩ := ensurePoolNonempty_pools s
  have hlast : (pushNewPool (ensurePoolNonempty s).1).pools.getLastD 0 =
      (ensurePoolNonempty s).1.nextHandle :=
    getLastD_append_singleton _ _ _
  have hlast2 : (pushNewPool (ensurePoolNonempty s).1).pools.getLast?.getD 0 =
      (ensurePoolNonempty s).1.nextHandle := by simpa using hlast
  refine ⟨?_, ?_, ?_, ?_⟩
  · intro h1
    unfold arenaAllocate
    simp [h1, AllocResult.isExhaustion]
  · intro h1
    constructor
    · intro h2
      unfold arenaAllocate
      simp [h1, h2, hlast2]
    · intro h2
      unfold arenaAllocate
      simp [h1, h2]
  · intro h1 h2
    unfold arenaAllocate
    simp [h1, h2]
  · intro s' tr h
    unfold arenaAllocate at h
    by_cases e1 : env.firstResult.isExhaustion = true
    · by_cases e2 : env.secondResult = .success
      · simp only [e1, eq_self_iff_true, if_true, if_pos e2, Except.ok.injEq,
          Prod.mk.injEq] at h
        obtain ⟨hs, -⟩ := h
        refine ⟨ext0 ++ [(ensurePoolNonempty s).1.nextHandle], ?_⟩
        rw [← hs]
        show (pushNewPool (ensurePoolNonempty s).1).pools = _
        unfold pushNewPool
        simp [hext0]
      · simp [e1, e2] at h
    · have e1' : env.firstResult.isExhaustion = false := by
        cases henv : env.firstResult.isExhaustion
        · rfl
        · exact absurd henv e1
      by_cases e2 : env.firstResult = .success
      · simp only [e1', Bool.false_eq_true, if_false, if_pos e2, Except.ok.injEq,
          Prod.mk.injEq] at h
        obtain ⟨hs, -⟩ := h
        exact ⟨ext0, by rw [← hs, hext0]⟩
      · simp [e1', e2] at h

theorem arenaAllocate_spec_witness :
    (({ firstResult := .errFragmentedPool, secondResult := .success } :
        AllocEnv).firstResult.isExhaustion = true) ∧
    arenaAllocate { firstResult := .errFragmentedPool, secondResult := .success }
        { pools := [3], nextHandle := 5 } =
      .ok ({ pools := [3, 5], nextHandle := 6 },
           [ArenaAct.tryAlloc 3 .errFragmentedPool, ArenaAct.createPool 5,
            ArenaAct.tryAlloc 5 .success]) := by
  refine ⟨by decide, ?_⟩
  have h := ((arenaAllocate_spec
      { firstResult := .errFragmentedPool, secondResult := .success }
      { pools := [3], nextHandle := 5 }).2.1 (by decide)).1 (by decide)
  exact h.trans (by rfl)

/-! ## PipelineCacheManager::save -/

/-- C8: `save()` never raises an error; it returns silently before writing
when the cache handle is null or the fetched blob is empty; whenever a rename
is attempted it is preceded by exactly the fetch–write–flush sequence; on a
failed first rename it removes the target and retries the rename exactly once,
and gives up silently after that; on a successful first rename neither the
removal nor a second attempt happens. -/
theorem cacheSave_spec (env : SaveEnv) :
    ∃ tr, cacheSave env = .ok tr ∧
      (env.cacheNonNull = false → tr = []) ∧
      (env.cacheNonNull = true → env.deviceNonNull = true → env.pathNonempty = true →
        env.sizeQueryOk = true → env.size = 0 → tr = [SaveAct.getDataSize]) ∧
      (SaveAct.renameAttempt 1 ∈ tr →
        tr.take 5 = [SaveAct.getDataSize, SaveAct.getData, SaveAct.writeTemp,
          SaveAct.flushTemp, SaveAct.renameAttempt 1]) ∧
      (SaveAct.renameAttempt 1 ∈ tr → env.rename1Ok = true →
        SaveAct.removeTarget ∉ tr ∧ SaveAct.renameAttempt 2 ∉ tr) ∧
      (SaveAct.renameAttempt 1 ∈ tr → env.rename1Ok = false →
        tr = [SaveAct.getDataSize, SaveAct.getData, SaveAct.writeTemp,
          SaveAct.flushTemp, SaveAct.renameAttempt 1, SaveAct.removeTarget,
          SaveAct.renameAttempt 2]) ∧
      (SaveAct.renameAttempt 1 ∉ tr →
        SaveAct.removeTarget ∉ tr ∧ SaveAct.renameAttempt 2 ∉ tr) := by
  by_cases h1 : env.cacheNonNull = true ∧ env.deviceNonNull = true ∧ env.pathNonempty = true
  case neg =>
    refine ⟨[], by unfold cacheSave; rw [if_pos h1], ?_, ?_, ?_, ?_, ?_, ?_⟩ <;>
      intros <;> simp_all
  case pos =>
    by_cases h2 : env.sizeQueryOk = true ∧ 0 < env.size
    case neg =>
      refine ⟨[SaveAct.getDataSize],
        by unfold cacheSave; rw [if_neg (not_not_intro h1), if_pos h2],
        ?_, ?_, ?_, ?_, ?_, ?_⟩ <;> intros <;> simp_all
    case pos =>
      by_cases h3 : env.dataQueryOk = true ∧ 0 < env.size2
      case neg =>
        refine ⟨[SaveAct.getDataSize, SaveAct.getData],
          by unfold cacheSave
             rw [if_neg (not_not_intro h1), if_neg (not_not_intro h2), if_pos h3],
          ?_, ?_, ?_, ?_, ?_, ?_⟩ <;> intros <;> simp_all
      case pos =>
        by_cases h4 : env.openOk = false
        case pos =>
          refine ⟨[SaveAct.getDataSize, SaveAct.getData],
            by unfold cacheSave
               rw [if_neg (not_not_intro h1), if_neg (not_not_intro h2),
                 if_neg (not_not_intro h3), if_pos h4],
            ?_, ?_, ?_, ?_, ?_, ?_⟩ <;> intros <;> simp_all
        case neg =>
          by_cases h5 : env.writeFlushOk = false
          case pos =>
            refine ⟨[SaveAct.getDataSize, SaveAct.getData, SaveAct.writeTemp,
                SaveAct.flushTemp],
              by unfold cacheSave
                 rw [if_neg (not_not_intro h1), if_neg (not_not_intro h2),
                   if_neg (not_not_intro h3), if_neg h4, if_pos h5],
              ?_, ?_, ?_, ?_, ?_, ?_⟩ <;> intros <;> simp_all
          case neg =>
            by_cases h6 : env.rename1Ok = true
            case pos =>
              refine ⟨[SaveAct.getDataSize, SaveAct.getData, SaveAct.writeTemp,
                  SaveAct.flushTemp, SaveAct.renameAttempt 1],
                by unfold cacheSave
                   rw [if_neg (not_not_intro h1), if_neg (not_not_intro h2),
                     if_neg (not_not_intro h3), if_neg h4, if_neg h5, if_pos h6],
                ?_, ?_, ?_, ?_, ?_, ?_⟩ <;> intros <;> simp_all
            case neg =>
              refine ⟨[SaveAct.getDataSize, SaveAct.getData, SaveAct.writeTemp,
                  SaveAct.flushTemp, SaveAct.renameAttempt 1, SaveAct.removeTarget,
                  SaveAct.renameAttempt 2],
                by unfold cacheSave
                   rw [if_neg (not_not_intro h1), if_neg (not_not_intro h2),
                     if_neg (not_not_intro h3), if_neg h4, if_neg h5, if_neg h6],
                ?_, ?_, ?_, ?_, ?_, ?_⟩ <;> intros <;> simp_all

theorem cacheSave_spec_witness :
    ∃ tr, cacheSave
        { cacheNonNull := true, deviceNonNull := true, pathNonempty := true,
          sizeQueryOk := true, size := 8, dataQueryOk := true, size2 := 8,
          openOk := true, writeFlushOk := true, rename1Ok := false,
          rename2Ok := false } = .ok tr ∧
      SaveAct.renameAttempt 1 ∈ tr ∧
      tr = [SaveAct.getDataSize, SaveAct.getData, SaveAct.writeTemp,
        SaveAct.flushTemp, SaveAct.renameAttempt 1, SaveAct.removeTarget,
        SaveAct.renameAttempt 2] := by
  obtain ⟨tr, hok, -, -, -, -, h5, -⟩ := cacheSave_spec
    { cacheNonNull := true, deviceNonNull := true, pathNonempty := true,
      sizeQueryOk := true, size := 8, dataQueryOk := true, size2 := 8,
      openOk := true, writeFlushOk := true, rename1Ok := false,
      rename2Ok := false }
  have hmem : SaveAct.renameAttempt 1 ∈ tr := by
    have : tr = [SaveAct.getDataSize, SaveAct.getData, SaveAct.writeTemp,
        SaveAct.flushTemp, SaveAct.renameAttempt 1, SaveAct.removeTarget,
        SaveAct.renameAttempt 2] := by
      have h := hok
      unfold cacheSave at h
      simp only [if_neg, if_pos] at h
      exact (Except.ok.injEq _ _).mp h.symm |>.symm ▸ rfl
    simp [this]
  exact ⟨tr, hok, hmem, h5 hmem rfl⟩

/-! ## drawFrame: out-of-date acquire (C10) and suboptimal acquire (C3) -/

/-- C10: when the acquire returns `VK_ERROR_OUT_OF_DATE_KHR`, `drawFrame`
triggers a swapchain recreation and returns at once: the frame performs no
uniform update, no command-buffer reset or re-record, no submit and no
present, and `currentFrame` is left unchanged. -/
theorem drawFrame_outOfDate_aborts (inp : FrameInput) (s : RenderState)
    (hacq : inp.acq = .outOfDateKHR) :
    ∀ s' tr, drawFrame inp s = .ok (s', tr) →
      s'.currentFrame = s.currentFrame ∧
      Ev.recreate inp.newImageCount ∈ tr ∧
      (∀ k, Ev.updateUniform k ∉ tr ∧ Ev.resetCmd k ∉ tr ∧ Ev.recordCmd k ∉ tr ∧
        Ev.present k ∉ tr) ∧
      (∀ k f, Ev.submit k f ∉ tr) := by
  intro s' tr h
  unfold drawFrame at h
  rw [if_pos hacq] at h
  simp only [Except.ok.injEq, Prod.mk.injEq] at h
  obtain ⟨hs, ht⟩ := h
  subst hs
  subst ht
  refine ⟨rfl, by simp, ?_, ?_⟩
  · intro k
    refine ⟨?_, ?_, ?_, ?_⟩ <;> simp
  · intro k f
    simp

theorem drawFrame_outOfDate_aborts_witness :
    Ev.recreate 4 ∈ ([Ev.waitFence 0, Ev.acquire .outOfDateKHR 0,
      Ev.recreate 4] : List Ev) ∧
    (0 : Nat) = (initialRenderState 2 3).currentFrame := by
  have h := drawFrame_outOfDate_aborts
    { acq := .outOfDateKHR, imageIndex := 0, submitOk := true,
      pres := .success, newImageCount := 4 }
    (initialRenderState 2 3) rfl _ _ (by rfl)
  exact ⟨h.2.1, h.1⟩

/-- C3 counterexample: a frame whose acquire returns `VK_SUBOPTIMAL_KHR`, whose
present returns `VK_SUCCESS` and with no pending resize flag records, submits
and presents — but no swapchain recreation happens after the present: the
suboptimal acquire result is not remembered. -/
theorem drawFrame_suboptimal_not_remembered :
    ∃ s' tr,
      drawFrame
        { acq := .suboptimalKHR, imageIndex := 0, submitOk := true,
          pres := .success, newImageCount := 3 }
        (initialRenderState 2 3) = .ok (s', tr) ∧
      Ev.recordCmd 0 ∈ tr ∧ Ev.submit 0 0 ∈ tr ∧ Ev.present 0 ∈ tr ∧
      (∀ n, Ev.recreate n ∉ tr) := by
  refine ⟨_, _, rfl, by decide, by decide, by decide, ?_⟩
  intro n
  simp [initialRenderState, drawFrame, slotFence, waitOnFence, resetFenceSt]

/-- C3 amended: on a suboptimal acquire the frame proceeds normally — it
updates the uniforms, resets and re-records the command buffer, submits and
presents — but the suboptimal acquire result is not remembered: a recreation
after this frame's present happens exactly when the present call itself
returns out-of-date or suboptimal, or the external resize flag is set, and
when it happens it comes after the present. -/
theorem drawFrame_suboptimal_proceeds (inp : FrameInput) (s : RenderState)
    (hacq : inp.acq = .suboptimalKHR) (hsub : inp.submitOk = true)
    (hpres : inp.pres = .errorOther → s.framebufferResized = true) :
    (∃ s' tr, drawFrame inp s = .ok (s', tr)) ∧
    ∀ s' tr, drawFrame inp s = .ok (s', tr) →
      Ev.updateUniform inp.imageIndex ∈ tr ∧
      Ev.resetCmd inp.imageIndex ∈ tr ∧ Ev.recordCmd inp.imageIndex ∈ tr ∧
      Ev.submit inp.imageIndex (slotFence s) ∈ tr ∧
      Ev.present inp.imageIndex ∈ tr ∧
      ((Ev.recreate inp.newImageCount ∈ tr) ↔
        (inp.pres = .outOfDateKHR ∨ inp.pres = .suboptimalKHR ∨
          s.framebufferResized = true)) ∧
      ((inp.pres = .outOfDateKHR ∨ inp.pres = .suboptimalKHR ∨
          s.framebufferResized = true) →
        ∃ p, tr = p ++ [Ev.present inp.imageIndex, Ev.recreate inp.newImageCount]) := by
  have hne1 : inp.acq ≠ .outOfDateKHR := by rw [hacq]; intro h; cases h
  have hne2 : ¬ (inp.acq ≠ .success ∧ inp.acq ≠ .suboptimalKHR) := by
    rw [hacq]; intro h; exact h.2 rfl
  have hns : ¬ inp.submitOk = false := by rw [hsub]; intro h; cases h
  by_cases hcond : inp.pres = .outOfDateKHR ∨ inp.pres = .suboptimalKHR ∨
      s.framebufferResized = true
  · rcases hm : s.imagesInFlight.getD inp.imageIndex none with _ | oldh
    · constructor
      · rcases hres : drawFrame inp s with e | v
        · exfalso
          unfold drawFrame at hres
          rw [if_neg hne1, if_neg hne2] at hres
          simp only [hm] at hres
          rw [if_neg hns, if_pos hcond] at hres
          cases hres
        · exact ⟨v.1, v.2, rfl⟩
      · intro s' tr h
        unfold drawFrame at h
        rw [if_neg hne1, if_neg hne2] at h
        simp only [hm] at h
        rw [if_neg hns, if_pos hcond] at h
        simp only [Except.ok.injEq, Prod.mk.injEq] at h
        obtain ⟨-, htr⟩ := h
        subst htr
        refine ⟨by simp, by simp, by simp, by simp, by simp, by simp [hcond], ?_⟩
        intro _
        exact ⟨[Ev.waitFence (slotFence s), Ev.acquire inp.acq inp.imageIndex,
          Ev.setImageFence inp.imageIndex (slotFence s),
          Ev.updateUniform inp.imageIndex, Ev.resetCmd inp.imageIndex,
          Ev.recordCmd inp.imageIndex, Ev.resetFence (slotFence s),
          Ev.submit inp.imageIndex (slotFence s)], by simp⟩
    · constructor
      · rcases hres : drawFrame inp s with e | v
        · exfalso
          unfold drawFrame at hres
          rw [if_neg hne1, if_neg hne2] at hres
          simp only [hm] at hres
          rw [if_neg hns, if_pos hcond] at hres
          cases hres
        · exact ⟨v.1, v.2, rfl⟩
      · intro s' tr h
        unfold drawFrame at h
        rw [if_neg hne1, if_neg hne2] at h
        simp only [hm] at h
        rw [if_neg hns, if_pos hcond] at h
        simp only [Except.ok.injEq, Prod.mk.injEq] at h
        obtain ⟨-, htr⟩ := h
        subst htr
        refine ⟨by simp, by simp, by simp, by simp, by simp, by simp [hcond], ?_⟩
        intro _
        exact ⟨[Ev.waitFence (slotFence s), Ev.acquire inp.acq inp.imageIndex,
          Ev.waitFence oldh, Ev.setImageFence inp.imageIndex (slotFence s),
          Ev.updateUniform inp.imageIndex, Ev.resetCmd inp.imageIndex,
          Ev.recordCmd inp.imageIndex, Ev.resetFence (slotFence s),
          Ev.submit inp.imageIndex (slotFence s)], by simp⟩
  · have hsucc : inp.pres = .success := by
      rcases hp : inp.pres with _ | _ | _ | _
      · rfl
      · exact absurd (Or.inr (Or.inl hp)) hcond
      · exact absurd (Or.inl hp) hcond
      · exact absurd (Or.inr (Or.inr (hpres hp))) hcond
    have hnp : ¬ inp.pres ≠ PresentResult.success := by rw [hsucc]; intro h; exact h rfl
    rcases hm : s.imagesInFlight.getD inp.imageIndex none with _ | oldh
    · constructor
      · rcases hres : drawFrame inp s with e | v
        · exfalso
          unfold drawFrame at hres
          rw [if_neg hne1, if_neg hne2] at hres
          simp only [hm] at hres
          rw [if_neg hns, if_neg hcond, if_neg hnp] at hres
          cases hres
        · exact ⟨v.1, v.2, rfl⟩
      · intro s' tr h
        unfold drawFrame at h
        rw [if_neg hne1, if_neg hne2] at h
        simp only [hm] at h
        rw [if_neg hns, if_neg hcond, if_neg hnp] at h
        simp only [Except.ok.injEq, Prod.mk.injEq] at h
        obtain ⟨-, htr⟩ := h
        subst htr
        refine ⟨by simp, by simp, by simp, by simp, by simp, ?_, ?_⟩
        · constructor
          · intro hmem
            exact absurd hmem (by simp)
          · intro hc
            exact absurd hc hcond
        · intro hc
          exact absurd hc hcond
    · constructor
      · rcases hres : drawFrame inp s with e | v
        · exfalso
          unfold drawFrame at hres
          rw [if_neg hne1, if_neg hne2] at hres
          simp only [hm] at hres
          rw [if_neg hns, if_neg hcond, if_neg hnp] at hres
          cases hres
        · exact ⟨v.1, v.2, rfl⟩
      · intro s' tr h
        unfold drawFrame at h
        rw [if_neg hne1, if_neg hne2] at h
        simp only [hm] at h
        rw [if_neg hns, if_neg hcond, if_neg hnp] at h
        simp only [Except.ok.injEq, Prod.mk.injEq] at h
        obtain ⟨-, htr⟩ := h
        subst htr
        refine ⟨by simp, by simp, by simp, by simp, by simp, ?_, ?_⟩
        · constructor
          · intro hmem
            exact absurd hmem (by simp)
          · intro hc
            exact absurd hc hcond
        · intro hc
          exact absurd hc hcond

theorem drawFrame_suboptimal_proceeds_witness :
    (∃ s' tr,
      drawFrame
        { acq := .suboptimalKHR, imageIndex := 1, submitOk := true,
          pres := .suboptimalKHR, newImageCount := 3 }
        (initialRenderState 2 3) = .ok (s', tr)) ∧
    ∀ s' tr,
      drawFrame
        { acq := .suboptimalKHR, imageIndex := 1, submitOk := true,
          pres := .suboptimalKHR, newImageCount := 3 }
        (initialRenderState 2 3) = .ok (s', tr) →
      Ev.updateUniform 1 ∈ tr ∧ Ev.resetCmd 1 ∈ tr ∧ Ev.recordCmd 1 ∈ tr ∧
      Ev.submit 1 (slotFence (initialRenderState 2 3)) ∈ tr ∧
      Ev.present 1 ∈ tr ∧
      ((Ev.recreate 3 ∈ tr) ↔
        (PresentResult.suboptimalKHR = PresentResult.outOfDateKHR ∨
         PresentResult.suboptimalKHR = PresentResult.suboptimalKHR ∨
         (initialRenderState 2 3).framebufferResized = true)) ∧
      ((PresentResult.suboptimalKHR = PresentResult.outOfDateKHR ∨
        PresentResult.suboptimalKHR = PresentResult.suboptimalKHR ∨
        (initialRenderState 2 3).framebufferResized = true) →
        ∃ p, tr = p ++ [Ev.present 1, Ev.recreate 3]) :=
  drawFrame_suboptimal_proceeds
    { acq := .suboptimalKHR, imageIndex := 1, submitOk := true,
      pres := .suboptimalKHR, newImageCount := 3 }
    (initialRenderState 2 3) rfl rfl (fun h => by cases h)

/-! ## Renderer::recreateSwapchain -/

theorem waitForNonzeroSize_nonzero (sizes : List (Nat × Nat)) (wh : Nat × Nat)
    (h : waitForNonzeroSize sizes = some wh) : 0 < wh.1 ∧ 0 < wh.2 := by
  induction sizes with
  | nil => cases h
  | cons a rest ih =>
    unfold waitForNonzeroSize at h
    split at h
    · exact ih h
    · rename_i hz
      cases h
      push_neg at hz
      omega

/-- C4: `recreateSwapchain` destroys and rebuilds nothing while either
drawable dimension is 0 — if the polled size never becomes nonzero it blocks
in the event loop and performs no action at all, and when it proceeds the size
it saw has both dimensions nonzero; its first action is the device-idle wait,
followed by the teardown; and afterwards the image-view, render-finished
semaphore, images-in-flight and command-buffer sequences all have length
exactly the new swapchain image count. -/
theorem recreateSwapchain_spec (env : RecreateEnv) (s : SwapObjects) :
    (waitForNonzeroSize env.polledSizes = none → recreateSwapchain env s = none) ∧
    (∀ s' tr, recreateSwapchain env s = some (s', tr) →
      (∃ wh, waitForNonzeroSize env.polledSizes = some wh ∧ 0 < wh.1 ∧ 0 < wh.2) ∧
      tr.take 2 = [RecAct.deviceWaitIdle, RecAct.destroyObjects] ∧
      s'.swapchainImages.length = env.actualImageCount ∧
      s'.swapchainImageViews.length = s'.swapchainImages.length ∧
      s'.renderFinishedSemaphores.length = s'.swapchainImages.length ∧
      s'.imagesInFlight.length = s'.swapchainImages.length ∧
      s'.commandBuffers.length = s'.swapchainImages.length) := by
  constructor
  · intro h
    unfold recreateSwapchain
    rw [h]
  · intro s' tr h
    unfold recreateSwapchain at h
    rcases hw : waitForNonzeroSize env.polledSizes with _ | wh
    · rw [hw] at h
      cases h
    · rw [hw] at h
      simp only [Option.some.injEq, Prod.mk.injEq] at h
      obtain ⟨hs, htr⟩ := h
      subst hs
      have hnz := waitForNonzeroSize_nonzero env.polledSizes wh hw
      refine ⟨⟨wh, rfl, hnz⟩, by rw [← htr]; rfl, ?_, ?_, ?_, ?_, ?_⟩ <;>
        simp [recreatePerImageSemaphoresSt, createCommandBuffersSt,
          createImageViewsSt, createSwapchainSt, destroySwapchainObjects]

theorem recreateSwapchain_spec_witness :
    (∀ s' tr,
      recreateSwapchain
        { polledSizes := [(0, 0), (0, 600), (800, 600)],
          caps := { minImageCount := 2, maxImageCount := 0, currentExtentW := 800,
                    currentExtentH := 600, minExtentW := 1, minExtentH := 1,
                    maxExtentW := 4096, maxExtentH := 4096 },
          windowW := 800, windowH := 600, actualImageCount := 4 }
        { swapchainImages := [0, 1, 2], swapchainImageViews := [1, 2, 3],
          commandBuffers := [2, 3, 4], renderFinishedSemaphores := [3, 4, 5],
          imagesInFlight := [none, none, none], extentW := 640, extentH := 480 } =
        some (s', tr) →
      (∃ wh, waitForNonzeroSize [(0, 0), (0, 600), (800, 600)] = some wh ∧
        0 < wh.1 ∧ 0 < wh.2) ∧
      tr.take 2 = [RecAct.deviceWaitIdle, RecAct.destroyObjects] ∧
      s'.swapchainImages.length = 4 ∧
      s'.swapchainImageViews.length = s'.swapchainImages.length ∧
      s'.renderFinishedSemaphores.length = s'.swapchainImages.length ∧
      s'.imagesInFlight.length = s'.swapchainImages.length ∧
      s'.commandBuffers.length = s'.swapchainImages.length) :=
  (recreateSwapchain_spec
    { polledSizes := [(0, 0), (0, 600), (800, 600)],
      caps := { minImageCount := 2, maxImageCount := 0, currentExtentW := 800,
                currentExtentH := 600, minExtentW := 1, minExtentH := 1,
                maxExtentW := 4096, maxExtentH := 4096 },
      windowW := 800, windowH := 600, actualImageCount := 4 }
    { swapchainImages := [0, 1, 2], swapchainImageViews := [1, 2, 3],
      commandBuffers := [2, 3, 4], renderFinishedSemaphores := [3, 4, 5],
      imagesInFlight := [none, none, none], extentW := 640, extentH := 480 }).2

/-! ## Frame loop: list helpers -/

theorem getD_set_self {α : Type} (l : List α) (i : Nat) (a d : α) (h : i < l.length) :
    (l.set i a).getD i d = a := by
  rw [List.getD_eq_getElem?_getD, List.getElem?_set_eq_of_lt a h]
  rfl

theorem getD_set_ne {α : Type} (l : List α) (i j : Nat) (a d : α) (h : i ≠ j) :
    (l.set i a).getD j d = l.getD j d := by
  rw [List.getD_eq_getElem?_getD, List.getElem?_set_ne h, ← List.getD_eq_getElem?_getD]

theorem getD_range (n i : Nat) (h : i < n) : (List.range n).getD i 0 = i := by
  rw [List.getD_eq_getElem?_getD, List.getElem?_range h]
  rfl

theorem getD_mem_of_some {α : Type} {l : List (Option α)} {k : Nat} {x : α}
    (h : l.getD k none = some x) : some x ∈ l := by
  rw [List.getD_eq_getElem?_getD] at h
  rcases hk : l[k]? with _ | v
  · rw [hk] at h
    cases h
  · rw [hk] at h
    simp only [Option.getD_some] at h
    subst h
    exact List.getElem?_mem hk

/-- Everything a single successful `drawFrame` execution guarantees: the
slot-fence wait is its first event; any submit hands over that same slot
fence; the slot-fence handle vector, frame-slot bound and fence-heap size are
untouched; the slot either advances by `(i + 1) % N` or (out-of-date abort)
stays; at the command-buffer reset the slot fence is signaled; on a proceeding
acquire, a set per-image fence is waited on before any reuse and is signaled
at the uniform update, and the per-image fence slot is then set to the current
slot's fence; handles entering `imagesInFlight` are old ones or the slot
fence. -/
theorem drawFrame_ok_facts (inp : FrameInput) (s s' : RenderState) (tr : List Ev)
    (h : drawFrame inp s = .ok (s', tr)) :
    tr.head? = some (Ev.waitFence (slotFence s)) ∧
    (∀ k f, Ev.submit k f ∈ tr → f = slotFence s) ∧
    s'.inFlightFences = s.inFlightFences ∧
    s'.maxFramesInFlight = s.maxFramesInFlight ∧
    s'.fences.length = s.fences.length ∧
    (s'.currentFrame = (s.currentFrame + 1) % s.maxFramesInFlight ∨
      s'.currentFrame = s.currentFrame) ∧
    (slotFence s < s.fences.length → (∃ k, Ev.resetCmd k ∈ tr) →
      (replayFences s.fences (tr.takeWhile fun e => !e.isResetCmd)).getD
        (slotFence s) false = true) ∧
    ((inp.acq = .success ∨ inp.acq = .suboptimalKHR) →
      (∀ oldh, s.imagesInFlight.getD inp.imageIndex none = some oldh →
        (∃ rest, tr = Ev.waitFence (slotFence s) ::
          Ev.acquire inp.acq inp.imageIndex :: Ev.waitFence oldh ::
          Ev.setImageFence inp.imageIndex (slotFence s) ::
          Ev.updateUniform inp.imageIndex :: Ev.resetCmd inp.imageIndex ::
          Ev.recordCmd inp.imageIndex :: rest) ∧
        (oldh < s.fences.length →
          (replayFences s.fences (tr.takeWhile fun e => !e.isUpdateUniform)).getD
            oldh false = true)) ∧
      (s.imagesInFlight.getD inp.imageIndex none = none →
        ∃ rest, tr = Ev.waitFence (slotFence s) ::
          Ev.acquire inp.acq inp.imageIndex ::
          Ev.setImageFence inp.imageIndex (slotFence s) ::
          Ev.updateUniform inp.imageIndex :: Ev.resetCmd inp.imageIndex ::
          Ev.recordCmd inp.imageIndex :: rest) ∧
      (inp.imageIndex < s.imagesInFlight.length → (∀ n, Ev.recreate n ∉ tr) →
        s'.imagesInFlight.getD inp.imageIndex none = some (slotFence s))) ∧
    (∀ hdl, some hdl ∈ s'.imagesInFlight →
      some hdl ∈ s.imagesInFlight ∨ hdl = slotFence s) := by
  by_cases hOOD : inp.acq = .outOfDateKHR
  · unfold drawFrame at h
    rw [if_pos hOOD] at h
    simp only [Except.ok.injEq, Prod.mk.injEq] at h
    obtain ⟨hs, htr⟩ := h
    subst hs
    subst htr
    refine ⟨rfl, by simp, rfl, rfl, by simp [recreateInFrame, waitOnFence], Or.inr rfl,
      ?_, ?_, ?_⟩
    · intro _ hex
      exact absurd hex (by simp)
    · intro hor
      rcases hor with h1 | h1 <;> {rw [hOOD] at h1; exact absurd h1 (by decide)}
    · intro hdl hmem
      have := List.eq_of_mem_replicate hmem
      cases this
  · by_cases hBad : inp.acq ≠ .success ∧ inp.acq ≠ .suboptimalKHR
    · unfold drawFrame at h
      rw [if_neg hOOD, if_pos hBad] at h
      cases h
    · by_cases hsubmit : inp.submitOk = false
      · unfold drawFrame at h
        rw [if_neg hOOD, if_neg hBad] at h
        rcases hm : s.imagesInFlight.getD inp.imageIndex none with _ | oldh <;>
          (simp only [hm] at h; rw [if_pos hsubmit] at h; cases h)
      · rcases hm : s.imagesInFlight.getD inp.imageIndex none with _ | oldh
        · by_cases hcond : inp.pres = .outOfDateKHR ∨ inp.pres = .suboptimalKHR ∨
              s.framebufferResized = true
          · unfold drawFrame at h
            rw [if_neg hOOD, if_neg hBad] at h
            simp only [hm] at h
            rw [if_neg hsubmit, if_pos hcond] at h
            simp only [Except.ok.injEq, Prod.mk.injEq] at h
            obtain ⟨hs, htr⟩ := h
            subst hs
            subst htr
            refine ⟨rfl, ?_, rfl, rfl,
              by simp [advanceFrame, recreateInFrame, resetFenceSt, waitOnFence],
              Or.inl rfl, ?_, ?_, ?_⟩
            · intro k f hmem
              simp at hmem
              exact hmem.2
            · intro hlt _
              simp only [List.cons_append, List.nil_append, List.takeWhile_cons,
                Ev.isResetCmd, Bool.not_false, Bool.not_true, if_true, if_false,
                Bool.false_eq_true, replayFences]
              exact getD_set_self _ _ _ _ hlt
            · intro _
              refine ⟨?_, ?_, ?_⟩
              · intro oldh hmo
                exact Option.noConfusion hmo
              · intro _
                exact ⟨_, rfl⟩
              · intro _ hnorec
                exact absurd (by simp) (hnorec inp.newImageCount)
            · intro hdl hmem
              have := List.eq_of_mem_replicate hmem
              cases this
          · by_cases hpres : inp.pres ≠ .success
            · unfold drawFrame at h
              rw [if_neg hOOD, if_neg hBad] at h
              simp only [hm] at h
              rw [if_neg hsubmit, if_neg hcond, if_pos hpres] at h
              cases h
            · unfold drawFrame at h
              rw [if_neg hOOD, if_neg hBad] at h
              simp only [hm] at h
              rw [if_neg hsubmit, if_neg hcond, if_neg hpres] at h
              simp only [Except.ok.injEq, Prod.mk.injEq] at h
              obtain ⟨hs, htr⟩ := h
              subst hs
              subst htr
              refine ⟨rfl, ?_, rfl, rfl,
                by simp [advanceFrame, resetFenceSt, waitOnFence],
                Or.inl rfl, ?_, ?_, ?_⟩
              · intro k f hmem
                simp at hmem
                exact hmem.2
              · intro hlt _
                simp only [List.cons_append, List.nil_append, List.takeWhile_cons,
                  Ev.isResetCmd, Bool.not_false, Bool.not_true, if_true, if_false,
                  Bool.false_eq_true, replayFences]
                exact getD_set_self _ _ _ _ hlt
              · intro _
                refine ⟨?_, ?_, ?_⟩
                · intro oldh hmo
                  exact Option.noConfusion hmo
                · intro _
                  exact ⟨_, rfl⟩
                · intro hk _
                  show (s.imagesInFlight.set inp.imageIndex
                    (some (slotFence s))).getD inp.imageIndex none = some (slotFence s)
                  exact getD_set_self _ _ _ _ hk
              · intro hdl hmem
                have hmem' : some hdl ∈ s.imagesInFlight.set inp.imageIndex
                    (some (slotFence s)) := hmem
                rcases List.mem_or_eq_of_mem_set hmem' with h1 | h1
                · exact Or.inl h1
                · cases h1
                  exact Or.inr rfl
        · by_cases hcond : inp.pres = .outOfDateKHR ∨ inp.pres = .suboptimalKHR ∨
              s.framebufferResized = true
          · unfold drawFrame at h
            rw [if_neg hOOD, if_neg hBad] at h
            simp only [hm] at h
            rw [if_neg hsubmit, if_pos hcond] at h
            simp only [Except.ok.injEq, Prod.mk.injEq] at h
            obtain ⟨hs, htr⟩ := h
            subst hs
            subst htr
            refine ⟨rfl, ?_, rfl, rfl,
              by simp [advanceFrame, recreateInFrame, resetFenceSt, waitOnFence],
              Or.inl rfl, ?_, ?_, ?_⟩
            · intro k f hmem
              simp at hmem
              exact hmem.2
            · intro hlt _
              simp only [List.cons_append, List.nil_append, List.takeWhile_cons,
                Ev.isResetCmd, Bool.not_false, Bool.not_true, if_true, if_false,
                Bool.false_eq_true, replayFences]
              by_cases heq : oldh = slotFence s
              · subst heq
                exact getD_set_self _ _ _ _ (by rw [List.length_set]; exact hlt)
              · rw [getD_set_ne _ _ _ _ _ heq]
                exact getD_set_self _ _ _ _ hlt
            · intro _
              refine ⟨?_, ?_, ?_⟩
              · intro oldh' hmo
                cases hmo
                refine ⟨⟨_, rfl⟩, ?_⟩
                intro hlt
                simp only [List.cons_append, List.nil_append, List.takeWhile_cons,
                  Ev.isUpdateUniform, Bool.not_false, Bool.not_true, if_true, if_false,
                  Bool.false_eq_true, replayFences]
                exact getD_set_self _ _ _ _ (by rw [List.length_set]; exact hlt)
              · intro hno
                exact Option.noConfusion hno
              · intro _ hnorec
                exact absurd (by simp) (hnorec inp.newImageCount)
            · intro hdl hmem
              have := List.eq_of_mem_replicate hmem
              cases this
          · by_cases hpres : inp.pres ≠ .success
            · unfold drawFrame at h
              rw [if_neg hOOD, if_neg hBad] at h
              simp only [hm] at h
              rw [if_neg hsubmit, if_neg hcond, if_pos hpres] at h
              cases h
            · unfold drawFrame at h
              rw [if_neg hOOD, if_neg hBad] at h
              simp only [hm] at h
              rw [if_neg hsubmit, if_neg hcond, if_neg hpres] at h
              simp only [Except.ok.injEq, Prod.mk.injEq] at h
              obtain ⟨hs, htr⟩ := h
              subst hs
              subst htr
              refine ⟨rfl, ?_, rfl, rfl,
                by simp [advanceFrame, resetFenceSt, waitOnFence],
                Or.inl rfl, ?_, ?_, ?_⟩
              · intro k f hmem
                simp at hmem
                exact hmem.2
              · intro hlt _
                simp only [List.cons_append, List.nil_append, List.takeWhile_cons,
                  Ev.isResetCmd, Bool.not_false, Bool.not_true, if_true, if_false,
                  Bool.false_eq_true, replayFences]
                by_cases heq : oldh = slotFence s
                · subst heq
                  exact getD_set_self _ _ _ _ (by rw [List.length_set]; exact hlt)
                · rw [getD_set_ne _ _ _ _ _ heq]
                  exact getD_set_self _ _ _ _ hlt
              · intro _
                refine ⟨?_, ?_, ?_⟩
                · intro oldh' hmo
                  cases hmo
                  refine ⟨⟨_, rfl⟩, ?_⟩
                  intro hlt
                  simp only [List.cons_append, List.nil_append, List.takeWhile_cons,
                    Ev.isUpdateUniform, Bool.not_false, Bool.not_true, if_true, if_false,
                    Bool.false_eq_true, replayFences]
                  exact getD_set_self _ _ _ _ (by rw [List.length_set]; exact hlt)
                · intro hno
                  exact Option.noConfusion hno
                · intro hk _
                  show ((waitOnFence (waitOnFence s (slotFence s)) oldh).imagesInFlight.set
                    inp.imageIndex (some (slotFence s))).getD inp.imageIndex none =
                    some (slotFence s)
                  exact getD_set_self _ _ _ _ hk
              · intro hdl hmem
                have hmem' : some hdl ∈ s.imagesInFlight.set inp.imageIndex
                    (some (slotFence s)) := hmem
                rcases List.mem_or_eq_of_mem_set hmem' with h1 | h1
                · exact Or.inl h1
                · cases h1
                  exact Or.inr rfl

theorem slotFence_eq {n : Nat} {s : RenderState} (hwf : StateWF n s) :
    slotFence s = s.currentFrame := by
  unfold slotFence
  rw [hwf.2.2.1]
  exact getD_range n s.currentFrame hwf.2.1

theorem slotFence_lt {n : Nat} {s : RenderState} (hwf : StateWF n s) :
    slotFence s < n := by
  rw [slotFence_eq hwf]
  exact hwf.2.1

theorem slotFence_lt_len {n : Nat} {s : RenderState} (hwf : StateWF n s) :
    slotFence s < s.fences.length := by
  rw [hwf.2.2.2.1]
  exact slotFence_lt hwf

theorem drawFrame_wf {n : Nat} (hN : 1 ≤ n) {inp : FrameInput} {s s' : RenderState}
    {tr : List Ev} (hwf : StateWF n s) (h : drawFrame inp s = .ok (s', tr)) :
    StateWF n s' := by
  obtain ⟨-, -, hIFF, hMax, hLen, hCur, -, -, hImg⟩ := drawFrame_ok_facts inp s s' tr h
  refine ⟨hMax.trans hwf.1, ?_, hIFF.trans hwf.2.2.1, hLen.trans hwf.2.2.2.1, ?_⟩
  · rcases hCur with h1 | h1
    · rw [h1, hwf.1]
      exact Nat.mod_lt _ (by omega)
    · rw [h1]
      exact hwf.2.1
  · intro hdl hmem
    rcases hImg hdl hmem with h1 | h1
    · exact hwf.2.2.2.2 hdl h1
    · rw [h1]
      exact slotFence_lt hwf

theorem initialRenderState_wf (n k : Nat) (hN : 1 ≤ n) :
    StateWF n (initialRenderState n k) := by
  refine ⟨rfl, by show (0 : Nat) < n; omega, rfl, by simp [initialRenderState], ?_⟩
  intro hdl hmem
  have := List.eq_of_mem_replicate hmem
  cases this

theorem runFrames_facts {n : Nat} (hN : 1 ≤ n) :
    ∀ (inputs : List (Bool × FrameInput)) (s : RenderState) (recs : List FrameRec)
      (sfin : RenderState), StateWF n s → runFrames s inputs = .ok (recs, sfin) →
      ∀ r ∈ recs, StateWF n r.pre ∧ drawFrame r.input r.pre = .ok (r.post, r.events) := by
  intro inputs
  induction inputs with
  | nil =>
    intro s recs sfin hwf h r hr
    unfold runFrames at h
    simp only [Except.ok.injEq, Prod.mk.injEq] at h
    obtain ⟨h1, -⟩ := h
    subst h1
    cases hr
  | cons p rest ih =>
    obtain ⟨resized, inp⟩ := p
    intro s recs sfin hwf h r hr
    unfold runFrames at h
    have hwf0 : StateWF n (mergeResize resized s) := by
      unfold mergeResize
      split
      · exact ⟨hwf.1, hwf.2.1, hwf.2.2.1, hwf.2.2.2.1, hwf.2.2.2.2⟩
      · exact hwf
    rcases hd : drawFrame inp (mergeResize resized s) with e | v
    · simp only [hd] at h
      cases h
    · obtain ⟨s1, tr⟩ := v
      simp only [hd] at h
      rcases hr2 : runFrames s1 rest with e | w
      · simp only [hr2] at h
        cases h
      · obtain ⟨recs', sf⟩ := w
        simp only [hr2, Except.ok.injEq, Prod.mk.injEq] at h
        obtain ⟨h1, -⟩ := h
        subst h1
        rcases List.mem_cons.mp hr with hr1 | hr1
        · subst hr1
          exact ⟨hwf0, hd⟩
        · exact ih s1 recs' sf (drawFrame_wf hN hwf0 hd) hr2 r hr1

/-- C1: in any run of the frame loop from initialization, every executed frame
begins by blocking on `inFlightFences[currentFrame]` — before any
command-buffer reset or re-record — and the fence it hands to its submit is
that same slot fence; at the moment of the command-buffer reset that slot
fence is in the signaled state; and for any two frames of the same slot, the
fence the later frame blocks on is exactly the fence the earlier frame's
submit was given. -/
theorem drawFrame_slot_fence_discipline (n k : Nat) (hN : 1 ≤ n)
    (inputs : List (Bool × FrameInput)) (recs : List FrameRec) (sfin : RenderState)
    (hrun : runFrames (initialRenderState n k) inputs = .ok (recs, sfin)) :
    (∀ r ∈ recs,
      r.events.head? = some (Ev.waitFence (slotFence r.pre)) ∧
      (∀ j f, Ev.submit j f ∈ r.events → f = slotFence r.pre) ∧
      ((∃ j, Ev.resetCmd j ∈ r.events) →
        (replayFences r.pre.fences (r.events.takeWhile fun e => !e.isResetCmd)).getD
          (slotFence r.pre) false = true)) ∧
    (∀ a b ra rb, a < b → recs.get? a = some ra → recs.get? b = some rb →
      ra.pre.currentFrame = rb.pre.currentFrame →
      ∀ j f, Ev.submit j f ∈ ra.events →
        rb.events.head? = some (Ev.waitFence f)) := by
  have hfacts := runFrames_facts hN inputs _ recs sfin
    (initialRenderState_wf n k hN) hrun
  constructor
  · intro r hr
    obtain ⟨hwf, hok⟩ := hfacts r hr
    obtain ⟨hA, hB, -, -, -, -, hE, -, -⟩ := drawFrame_ok_facts _ _ _ _ hok
    exact ⟨hA, hB, fun hex => hE (slotFence_lt_len hwf) hex⟩
  · intro a b ra rb hab ha hb hcf j f hsub
    obtain ⟨hwfa, hoka⟩ := hfacts ra (List.get?_mem ha)
    obtain ⟨hwfb, hokb⟩ := hfacts rb (List.get?_mem hb)
    have hBa := (drawFrame_ok_facts _ _ _ _ hoka).2.1 j f hsub
    have hAb := (drawFrame_ok_facts _ _ _ _ hokb).1
    rw [hBa, slotFence_eq hwfa, hcf, ← slotFence_eq hwfb]
    exact hAb

/-- C2: in any run of the frame loop from initialization, every frame that
proceeds past its acquire with image index `k` first waits on the per-image
last-submitting fence `imagesInFlight[k]` when one is set — before the uniform
update, command-buffer reset and re-record — and that old fence is signaled by
the time of the uniform update; it then records `imagesInFlight[k] :=` the
current slot's fence (visible in the post-state whenever no recreation wiped
the per-image table at the end of the frame). -/
theorem drawFrame_image_fence_discipline (n k : Nat) (hN : 1 ≤ n)
    (inputs : List (Bool × FrameInput)) (recs : List FrameRec) (sfin : RenderState)
    (hrun : runFrames (initialRenderState n k) inputs = .ok (recs, sfin)) :
    ∀ r ∈ recs, (r.input.acq = .success ∨ r.input.acq = .suboptimalKHR) →
      (∀ oldh, r.pre.imagesInFlight.getD r.input.imageIndex none = some oldh →
        (∃ rest, r.events = Ev.waitFence (slotFence r.pre) ::
          Ev.acquire r.input.acq r.input.imageIndex :: Ev.waitFence oldh ::
          Ev.setImageFence r.input.imageIndex (slotFence r.pre) ::
          Ev.updateUniform r.input.imageIndex :: Ev.resetCmd r.input.imageIndex ::
          Ev.recordCmd r.input.imageIndex :: rest) ∧
        (replayFences r.pre.fences (r.events.takeWhile fun e => !e.isUpdateUniform)).getD
          oldh false = true) ∧
      (r.pre.imagesInFlight.getD r.input.imageIndex none = none →
        ∃ rest, r.events = Ev.waitFence (slotFence r.pre) ::
          Ev.acquire r.input.acq r.input.imageIndex ::
          Ev.setImageFence r.input.imageIndex (slotFence r.pre) ::
          Ev.updateUniform r.input.imageIndex :: Ev.resetCmd r.input.imageIndex ::
          Ev.recordCmd r.input.imageIndex :: rest) ∧
      (r.input.imageIndex < r.pre.imagesInFlight.length →
        (∀ m, Ev.recreate m ∉ r.events) →
        r.post.imagesInFlight.getD r.input.imageIndex none =
          some (slotFence r.pre)) := by
  have hfacts := runFrames_facts hN inputs _ recs sfin
    (initialRenderState_wf n k hN) hrun
  intro r hr hor
  obtain ⟨hwf, hok⟩ := hfacts r hr
  obtain ⟨-, -, -, -, -, -, -, hF, -⟩ := drawFrame_ok_facts _ _ _ _ hok
  obtain ⟨hFsome, hFnone, hFset⟩ := hF hor
  refine ⟨?_, hFnone, hFset⟩
  intro oldh hmo
  obtain ⟨hshape, hsig⟩ := hFsome oldh hmo
  refine ⟨hshape, hsig ?_⟩
  rw [hwf.2.2.2.1]
  exact hwf.2.2.2.2 oldh (getD_mem_of_some hmo)

theorem drawFrame_slot_fence_discipline_witness :
    ([Ev.waitFence 0, Ev.acquire .success 0, Ev.waitFence 1, Ev.setImageFence 0 0,
      Ev.updateUniform 0, Ev.resetCmd 0, Ev.recordCmd 0, Ev.resetFence 0,
      Ev.submit 0 0, Ev.present 0] : List Ev).head? = some (Ev.waitFence 0) := by
  have h := drawFrame_slot_fence_discipline 2 3 (by omega)
    [(false, { acq := .success, imageIndex := 0, submitOk := true,
               pres := .success, newImageCount := 3 }),
     (false, { acq := .success, imageIndex := 0, submitOk := true,
               pres := .success, newImageCount := 3 }),
     (false, { acq := .success, imageIndex := 0, submitOk := true,
               pres := .success, newImageCount := 3 })] _ _ (by rfl)
  have h2 := h.2 0 2 _ _ (by omega) (by rfl) (by rfl) (by rfl) 0 0 (by decide)
  exact h2

theorem drawFrame_image_fence_discipline_witness :
    (replayFences [false, true]
      (([Ev.waitFence 1, Ev.acquire .success 0, Ev.waitFence 0, Ev.setImageFence 0 1,
         Ev.updateUniform 0, Ev.resetCmd 0, Ev.recordCmd 0, Ev.resetFence 1,
         Ev.submit 0 1, Ev.present 0] : List Ev).takeWhile
          fun e => !e.isUpdateUniform)).getD 0 false = true := by
  have h := drawFrame_image_fence_discipline 2 3 (by omega)
    [(false, { acq := .success, imageIndex := 0, submitOk := true,
               pres := .success, newImageCount := 3 }),
     (false, { acq := .success, imageIndex := 0, submitOk := true,
               pres := .success, newImageCount := 3 })] _ _ (by rfl)
  have h2 := h
    { pre := { maxFramesInFlight := 2, currentFrame := 1, fences := [false, true],
               inFlightFences := [0, 1], imagesInFlight := [some 0, none, none],
               framebufferResized := false },
      input := { acq := .success, imageIndex := 0, submitOk := true,
                 pres := .success, newImageCount := 3 },
      events := [Ev.waitFence 1, Ev.acquire .success 0, Ev.waitFence 0,
                 Ev.setImageFence 0 1, Ev.updateUniform 0, Ev.resetCmd 0,
                 Ev.recordCmd 0, Ev.resetFence 1, Ev.submit 0 1, Ev.present 0],
      post := { maxFramesInFlight := 2, currentFrame := 0, fences := [true, false],
                inFlightFences := [0, 1], imagesInFlight := [some 1, none, none],
                framebufferResized := false } }
    (by decide) (Or.inl rfl)
  have h3 := (h2.1 0 (by rfl)).2
  exact h3

/-! ## makeCachePath: decoding round trips -/

theorem hexVal_hexChar (d : Nat) : hexVal (hexChar d) = d % 16 := by
  have key : ∀ e : Fin 16, hexVal (hexDigitChars.getD e '0') = e := by decide
  exact key ⟨d % 16, Nat.mod_lt d (by omega)⟩

theorem hexChar_mem (d : Nat) : hexChar d ∈ hexDigitChars := by
  have key : ∀ e : Fin 16, hexDigitChars.getD e '0' ∈ hexDigitChars := by decide
  exact key ⟨d % 16, Nat.mod_lt d (by omega)⟩

theorem foldl_toBaseAux (b : Nat) (hb : b + 2 ≤ 16) :
    ∀ (n : Nat) (acc : List Char) (a : Nat),
      List.foldl (fun x c => (b + 2) * x + hexVal c) a (toBaseAux b n acc) =
        List.foldl (fun x c => (b + 2) * x + hexVal c)
          (a * (b + 2) ^ baseLen b n + n) acc := by
  intro n
  induction n using Nat.strong_induction_on with
  | _ n ih =>
    match n with
    | 0 =>
      intro acc a
      simp [toBaseAux, baseLen]
    | Nat.succ m =>
      intro acc a
      rw [toBaseAux]
      have hdiv : (m + 1) / (b + 2) < m + 1 := Nat.div_lt_self (by omega) (by omega)
      rw [ih _ hdiv]
      simp only [List.foldl_cons]
      congr 1
      have hv : hexVal (hexChar ((m + 1) % (b + 2))) = (m + 1) % (b + 2) := by
        rw [hexVal_hexChar]
        exact Nat.mod_eq_of_lt (Nat.lt_of_lt_of_le (Nat.mod_lt _ (by omega)) hb)
      rw [hv]
      have hmod := Nat.div_add_mod (m + 1) (b + 2)
      have hlen : baseLen b (m + 1) = baseLen b ((m + 1) / (b + 2)) + 1 := by
        rw [baseLen]
      rw [hlen]
      calc (b + 2) * (a * (b + 2) ^ baseLen b ((m + 1) / (b + 2)) +
              (m + 1) / (b + 2)) + (m + 1) % (b + 2)
          = a * ((b + 2) ^ baseLen b ((m + 1) / (b + 2)) * (b + 2)) +
              ((b + 2) * ((m + 1) / (b + 2)) + (m + 1) % (b + 2)) := by ring
        _ = a * (b + 2) ^ (baseLen b ((m + 1) / (b + 2)) + 1) + (m + 1) := by
              rw [← pow_succ, hmod]

theorem hexVal_zeroChar : hexVal '0' = 0 := by decide

theorem fromBase_replicate_zero (b k : Nat) (l : List Char) :
    fromBase b (List.replicate k '0' ++ l) = fromBase b l := by
  induction k with
  | zero => rfl
  | succ m ih =>
    show fromBase b ('0' :: (List.replicate m '0' ++ l)) = fromBase b l
    unfold fromBase at ih ⊢
    simp only [List.foldl_cons, hexVal_zeroChar]
    simpa using ih

theorem fromBase_repBase (b : Nat) (hb : b + 2 ≤ 16) (n : Nat) :
    fromBase b (repBase b n) = n := by
  unfold repBase
  split
  · rename_i h
    rw [h]
    simp [fromBase, hexVal_zeroChar]
  · unfold fromBase
    rw [foldl_toBaseAux b hb n [] 0]
    simp

theorem fromBase_padLeft0 (b : Nat) (hb : b + 2 ≤ 16) (w n : Nat) :
    fromBase b (padLeft0 w (repBase b n)) = n := by
  unfold padLeft0
  rw [fromBase_replicate_zero]
  exact fromBase_repBase b hb n

theorem hexPad_inj {w n1 n2 : Nat} (h : hexPad w n1 = hexPad w n2) : n1 = n2 := by
  have h1 := fromBase_padLeft0 14 (by omega) w n1
  have h2 := fromBase_padLeft0 14 (by omega) w n2
  unfold hexPad at h
  rw [← h1, ← h2, h]

theorem decRepr_inj {n1 n2 : Nat} (h : decRepr n1 = decRepr n2) : n1 = n2 := by
  have h1 := fromBase_repBase 8 (by omega) n1
  have h2 := fromBase_repBase 8 (by omega) n2
  unfold decRepr at h
  rw [← h1, ← h2, h]

theorem toBaseAux_mem (b : Nat) :
    ∀ (n : Nat) (acc : List Char), (∀ c ∈ acc, c ∈ hexDigitChars) →
      ∀ c ∈ toBaseAux b n acc, c ∈ hexDigitChars := by
  intro n
  induction n using Nat.strong_induction_on with
  | _ n ih =>
    match n with
    | 0 =>
      intro acc hacc c hc
      rw [toBaseAux] at hc
      exact hacc c hc
    | Nat.succ m =>
      intro acc hacc c hc
      rw [toBaseAux] at hc
      have hdiv : (m + 1) / (b + 2) < m + 1 := Nat.div_lt_self (by omega) (by omega)
      refine ih _ hdiv _ ?_ c hc
      intro c' hc'
      rcases List.mem_cons.mp hc' with rfl | hc''
      · exact hexChar_mem _
      · exact hacc c' hc''

theorem repBase_mem (b n : Nat) : ∀ c ∈ repBase b n, c ∈ hexDigitChars := by
  unfold repBase
  split
  · intro c hc
    rcases List.mem_cons.mp hc with rfl | hc'
    · decide
    · cases hc'
  · exact toBaseAux_mem b n [] (by intro c hc; cases hc)

theorem padLeft0_mem {w : Nat} {ds : List Char} (hds : ∀ c ∈ ds, c ∈ hexDigitChars) :
    ∀ c ∈ padLeft0 w ds, c ∈ hexDigitChars := by
  intro c hc
  unfold padLeft0 at hc
  rcases List.mem_append.mp hc with hc' | hc'
  · have := List.eq_of_mem_replicate hc'
    subst this
    decide
  · exact hds c hc'

theorem hexPad_mem (w n : Nat) : ∀ c ∈ hexPad w n, c ∈ hexDigitChars :=
  padLeft0_mem (repBase_mem 14 n)

theorem hexPad_ne_of_not_mem (w n : Nat) {stop : Char} (hstop : stop ∉ hexDigitChars) :
    ∀ c ∈ hexPad w n, c ≠ stop := by
  intro c hc he
  subst he
  exact hstop (hexPad_mem w n c hc)

theorem decRepr_ne_of_not_mem (n : Nat) {stop : Char} (hstop : stop ∉ hexDigitChars) :
    ∀ c ∈ decRepr n, c ≠ stop := by
  intro c hc he
  subst he
  exact hstop (repBase_mem 8 n c hc)

theorem splitAtChar_append (stop : Char) :
    ∀ (t r : List Char), (∀ c ∈ t, c ≠ stop) →
      splitAtChar stop (t ++ stop :: r) = (t, r) := by
  intro t
  induction t with
  | nil =>
    intro r _
    simp [splitAtChar]
  | cons c cs ih =>
    intro r ht
    have hc : c ≠ stop := ht c (List.mem_cons_self c cs)
    show splitAtChar stop (c :: (cs ++ stop :: r)) = _
    rw [splitAtChar]
    rw [if_neg hc, ih r (fun c' hc' => ht c' (List.mem_cons_of_mem c hc'))]

/-- Splitting cancellation: two separator-free tokens followed by the same
separator and arbitrary tails are equal as lists only componentwise. -/
theorem token_cancel {stop : Char} {t1 t2 r1 r2 : List Char}
    (h1 : ∀ c ∈ t1, c ≠ stop) (h2 : ∀ c ∈ t2, c ≠ stop)
    (h : t1 ++ stop :: r1 = t2 ++ stop :: r2) : t1 = t2 ∧ r1 = r2 := by
  have := congrArg (splitAtChar stop) h
  rw [splitAtChar_append stop t1 r1 h1, splitAtChar_append stop t2 r2 h2] at this
  exact ⟨congrArg Prod.fst this, congrArg Prod.snd this⟩

theorem uuidHexChars_length (u : List Nat) :
    (uuidHexChars u).length = 2 * u.length := by
  induction u with
  | nil => rfl
  | cons a rest ih =>
    show (uuidHexChars (a :: rest)).length = _
    rw [uuidHexChars]
    simp [ih]
    omega

theorem uuidHexChars_inj :
    ∀ (u1 u2 : List Nat), u1.length = u2.length →
      (∀ x ∈ u1, x < 256) → (∀ x ∈ u2, x < 256) →
      uuidHexChars u1 = uuidHexChars u2 → u1 = u2 := by
  intro u1
  induction u1 with
  | nil =>
    intro u2 hlen _ _ _
    cases u2 with
    | nil => rfl
    | cons b bs => cases hlen
  | cons a as ih =>
    intro u2 hlen hb1 hb2 h
    cases u2 with
    | nil => cases hlen
    | cons b bs =>
      rw [uuidHexChars, uuidHexChars] at h
      simp only [List.cons.injEq] at h
      obtain ⟨hhi, hlo, hrest⟩ := h
      have ha : a < 256 := hb1 a (List.mem_cons_self a as)
      have hbb : b < 256 := hb2 b (List.mem_cons_self b bs)
      have hhi' : a / 16 = b / 16 := by
        have := congrArg hexVal hhi
        rw [hexVal_hexChar, hexVal_hexChar] at this
        omega
      have hlo' : a % 16 = b % 16 := by
        have := congrArg hexVal hlo
        rw [hexVal_hexChar, hexVal_hexChar] at this
        omega
      have hab : a = b := by omega
      subst hab
      rw [ih bs (by simpa using hlen) (fun x hx => hb1 x (List.mem_cons_of_mem a hx))
        (fun x hx => hb2 x (List.mem_cons_of_mem a hx)) hrest]

theorem apiTail_cancel {maj1 maj2 mnr1 mnr2 : Nat} {u1 u2 : List Nat}
    (hl1 : u1.length = 16) (hl2 : u2.length = 16)
    (hb1 : ∀ x ∈ u1, x < 256) (hb2 : ∀ x ∈ u2, x < 256)
    (h : 'a' :: 'p' :: 'i' :: '_' ::
        (decRepr maj1 ++ '.' :: (decRepr mnr1 ++ '_' ::
          ('u' :: 'u' :: 'i' :: 'd' :: '_' ::
            (uuidHexChars u1 ++ ['.', 'b', 'i', 'n'])))) =
      'a' :: 'p' :: 'i' :: '_' ::
        (decRepr maj2 ++ '.' :: (decRepr mnr2 ++ '_' ::
          ('u' :: 'u' :: 'i' :: 'd' :: '_' ::
            (uuidHexChars u2 ++ ['.', 'b', 'i', 'n']))))) :
    maj1 = maj2 ∧ mnr1 = mnr2 ∧ u1 = u2 := by
  have hnu : ('_' : Char) ∉ hexDigitChars := by decide
  have hnd : ('.' : Char) ∉ hexDigitChars := by decide
  simp only [List.cons.injEq, eq_self_iff_true, true_and] at h
  obtain ⟨hmj, h⟩ := token_cancel (decRepr_ne_of_not_mem maj1 hnd)
    (decRepr_ne_of_not_mem maj2 hnd) h
  obtain ⟨hmn, h⟩ := token_cancel (decRepr_ne_of_not_mem mnr1 hnu)
    (decRepr_ne_of_not_mem mnr2 hnu) h
  simp only [List.cons.injEq, eq_self_iff_true, true_and] at h
  have hlen : (uuidHexChars u1).length = (uuidHexChars u2).length := by
    rw [uuidHexChars_length, uuidHexChars_length, hl1, hl2]
  obtain ⟨huu, -⟩ := List.append_inj h hlen
  exact ⟨decRepr_inj hmj, decRepr_inj hmn,
    uuidHexChars_inj _ _ (by rw [hl1, hl2]) hb1 hb2 huu⟩

/-- C9: the cache filename is a function of exactly the device-identity
components — vendor id, device id, the driver key (stable `driverID` when
nonzero, else raw `driverVersion`), API major.minor, and the pipeline-cache
compatibility UUID: two property sets map to the same filename precisely when
all of these components agree, so changing any one of them changes the
filename. -/
theorem makeCachePath_key_injective (p1 p2 : PhysProps) (d1 d2 : Nat)
    (hl1 : p1.pipelineCacheUUID.length = 16) (hl2 : p2.pipelineCacheUUID.length = 16)
    (hb1 : ∀ x ∈ p1.pipelineCacheUUID, x < 256)
    (hb2 : ∀ x ∈ p2.pipelineCacheUUID, x < 256) :
    makeCacheFileName p1 d1 = makeCacheFileName p2 d2 ↔
      (p1.vendorID = p2.vendorID ∧ p1.deviceID = p2.deviceID ∧
       driverKey p1 d1 = driverKey p2 d2 ∧
       apiMajor p1.apiVersion = apiMajor p2.apiVersion ∧
       apiMinor p1.apiVersion = apiMinor p2.apiVersion ∧
       p1.pipelineCacheUUID = p2.pipelineCacheUUID) := by
  have hnu : ('_' : Char) ∉ hexDigitChars := by decide
  constructor
  · intro h
    unfold makeCacheFileName at h
    simp only [List.cons_append, List.nil_append, List.append_assoc,
      List.cons.injEq, eq_self_iff_true, true_and] at h
    obtain ⟨hv, h⟩ := token_cancel (hexPad_ne_of_not_mem 4 p1.vendorID hnu)
      (hexPad_ne_of_not_mem 4 p2.vendorID hnu) h
    have hvend := hexPad_inj hv
    obtain ⟨hdv, h⟩ := token_cancel (hexPad_ne_of_not_mem 4 p1.deviceID hnu)
      (hexPad_ne_of_not_mem 4 p2.deviceID hnu) h
    have hdev := hexPad_inj hdv
    by_cases h1 : d1 ≠ 0 <;> by_cases h2 : d2 ≠ 0
    · rw [if_pos h1, if_pos h2] at h
      simp only [List.cons_append, List.nil_append, List.append_assoc,
        List.cons.injEq, eq_self_iff_true, true_and] at h
      obtain ⟨hdrv, h⟩ := token_cancel (hexPad_ne_of_not_mem 4 d1 hnu)
        (hexPad_ne_of_not_mem 4 d2 hnu) h
      obtain ⟨hmaj, hmin, hu⟩ := apiTail_cancel hl1 hl2 hb1 hb2 h
      refine ⟨hvend, hdev, ?_, hmaj, hmin, hu⟩
      rw [driverKey, driverKey, if_pos h1, if_pos h2, hexPad_inj hdrv]
    · rw [if_pos h1, if_neg h2] at h
      exfalso
      simp only [List.cons_append, List.nil_append, List.append_assoc,
        List.cons.injEq, eq_self_iff_true, true_and] at h
      first
      | exact h
      | exact absurd h.1 (by decide)
    · rw [if_neg h1, if_pos h2] at h
      exfalso
      simp only [List.cons_append, List.nil_append, List.append_assoc,
        List.cons.injEq, eq_self_iff_true, true_and] at h
      first
      | exact h
      | exact absurd h.1 (by decide)
    · rw [if_neg h1, if_neg h2] at h
      simp only [List.cons_append, List.nil_append, List.append_assoc,
        List.cons.injEq, eq_self_iff_true, true_and] at h
      obtain ⟨hdrv, h⟩ := token_cancel
        (hexPad_ne_of_not_mem 8 p1.driverVersion hnu)
        (hexPad_ne_of_not_mem 8 p2.driverVersion hnu) h
      obtain ⟨hmaj, hmin, hu⟩ := apiTail_cancel hl1 hl2 hb1 hb2 h
      refine ⟨hvend, hdev, ?_, hmaj, hmin, hu⟩
      rw [driverKey, driverKey, if_neg h1, if_neg h2, hexPad_inj hdrv]
  · rintro ⟨hv, hd, hk, hmaj, hmin, hu⟩
    unfold makeCacheFileName
    rw [hv, hd, hmaj, hmin, hu]
    unfold driverKey at hk
    by_cases h1 : d1 ≠ 0 <;> by_cases h2 : d2 ≠ 0
    · rw [if_pos h1, if_pos h2] at hk
      rw [Sum.inl.injEq] at hk
      rw [if_pos h1, if_pos h2, hk]
    · rw [if_pos h1, if_neg h2] at hk
      cases hk
    · rw [if_neg h1, if_pos h2] at hk
      cases hk
    · rw [if_neg h1, if_neg h2] at hk
      rw [Sum.inr.injEq] at hk
      rw [if_neg h1, if_neg h2, hk]

theorem makeCachePath_key_injective_witness :
    makeCacheFileName
      { vendorID := 4318, deviceID := 9632, driverVersion := 5,
        apiVersion := 4194304 + 3 * 4096,
        pipelineCacheUUID := List.replicate 16 171 } 1 =
    makeCacheFileName
      { vendorID := 4318, deviceID := 9632, driverVersion := 777,
        apiVersion := 4194304 + 3 * 4096,
        pipelineCacheUUID := List.replicate 16 171 } 1 :=
  (makeCachePath_key_injective
    { vendorID := 4318, deviceID := 9632, driverVersion := 5,
      apiVersion := 4194304 + 3 * 4096,
      pipelineCacheUUID := List.replicate 16 171 }
    { vendorID := 4318, deviceID := 9632, driverVersion := 777,
      apiVersion := 4194304 + 3 * 4096,
      pipelineCacheUUID := List.replicate 16 171 } 1 1
    (by decide) (by decide) (by decide) (by decide)).mpr
    ⟨rfl, rfl, by decide, rfl, rfl, rfl⟩

end Pangaea
